import Mathlib

/-!
Shallow embedding of `src/mg_rpc/mg_rpc.c` — a bidirectional JSON-RPC
multiplexer (channel registry, handler table, pending-request table,
bounded FIFO send queue, frame codec glue).

Modelling conventions:
* C strings / `mg_str` spans become `String`; `mg_strcmp`/`mg_vcmp` become
  byte-exact `String` equality.
* Intrusive `SLIST`s become `List` with head insertion; the `STAILQ` send
  queue becomes a `List` with tail insertion.  Pointer identity of
  heap-allocated records is modelled by a `ref : Nat` field drawn from a
  per-instance allocation counter `next_ref`; `SLIST_REMOVE`/`STAILQ_REMOVE`
  of a node becomes `List.eraseP` on the node's `ref`.  In-place mutation of
  the node a first-match traversal found becomes `updFirst` (update the
  first list element matching the predicate).
* External collaborators (libc `rand`, mongoose URI parsing/assembly,
  the websocket channel factory, the prehandler verdict, the JSON
  printer/scanner) are not in the repository; they enter as components of an
  explicit environment `Env`, as the oracle streams in the world state `W`
  (transport send results, `rand` increments), or as structural data
  (`ScanInput` for the JSON scanner's per-field results, `Payload` for
  composed payload-prefix JSON).
* Callbacks (result callbacks, method handlers, observers, transport
  requests) are opaque: they are identified by a `Nat` and their invocation
  is recorded in an event trace `List Ev`.  Reentrant mutation from within a
  callback is outside the model, matching the single-threaded
  run-to-completion regime of the spec.
* C `int`/`int64_t` become `Int` (no arithmetic in the source overflows a
  64-bit quantity on the paths modelled here except `next_id + rand`, whose
  wrap-around is irrelevant to the claims: the id is an opaque token).
-/

/-- Result of `mg_parse_uri` on a destination string (external collaborator). -/
structure UriParts where
  scheme : String
  user_info : String
  host : String
  port : Nat
  path : String
  query : String
  fragment : String
deriving DecidableEq, Repr

/-- A channel object (`struct mg_rpc_channel`): transport-supplied capability
record.  `ref` models the object's pointer identity; `is_persistent` and
`is_broadcast_enabled` model the transport's attribute accessors
(`is_broadcast_enabled` may be a NULL function pointer, hence `Option`). -/
structure Chan where
  ref : Nat
  is_persistent : Bool
  is_broadcast_enabled : Option Bool
deriving DecidableEq, Repr

/-- `struct mg_rpc_cfg` (the fields the translated code reads). -/
structure mg_rpc_cfg where
  id : String
  max_queue_length : Int
  default_out_channel_idle_close_timeout : Int
deriving DecidableEq, Repr

/-- `struct mg_rpc_call_opts`. -/
structure mg_rpc_call_opts where
  dst : String
  src : String
  tag : String
  key : String
  broadcast : Bool
  no_queue : Bool
deriving DecidableEq, Repr

/-- `struct mg_rpc_frame`: the decoded inbound frame. -/
structure mg_rpc_frame where
  version : Int
  id : Int
  src : String
  dst : String
  tag : String
  method : String
  args : String
  result : String
  error_code : Int
  error_msg : String
  auth : String
deriving DecidableEq, Repr

/-- Composed payload-prefix JSON handed to `mg_rpc_dispatch_frame` (the
`payload_prefix_json` buffer together with the optional `payload_jsonf`
format): a call prefix (`"nr":true,`? `"method":…` `,"args":`?), a
`"result":` prefix, or an `"error":…` prefix. -/
inductive Payload where
  | call (nr : Bool) (method : String) (args : Option String)
  | result (body : String)
  | error (code : Int) (msg : Option String)
deriving DecidableEq, Repr

/-- An emitted wire frame, kept structured (the JSON printer is external).
`id` is printed only when non-zero; `dst`/`tag`/`key` only when non-empty. -/
structure OutFrame where
  id : Int
  src : String
  dst : String
  tag : String
  key : String
  payload : Payload
deriving DecidableEq, Repr

/-- `struct mg_rpc_handler_info`. -/
structure mg_rpc_handler_info where
  method : String
  args_fmt : String
  cb : Nat
deriving DecidableEq, Repr

/-- `struct mg_rpc_channel_info_internal`.  `ref` models the entry's pointer. -/
structure mg_rpc_channel_info_internal where
  ref : Nat
  dst : String
  ch : Chan
  is_open : Bool
  is_busy : Bool
deriving DecidableEq, Repr

/-- `struct mg_rpc_sent_request_info` (pending outgoing request). -/
structure mg_rpc_sent_request_info where
  id : Int
  cb : Nat
deriving DecidableEq, Repr

/-- `struct mg_rpc_queue_entry`.  `ref` models the entry's pointer; `ci` is
the optional pinned channel entry (by entry ref). -/
structure mg_rpc_queue_entry where
  ref : Nat
  dst : String
  frame : OutFrame
  ci : Option Nat
deriving DecidableEq, Repr

/-- `struct mg_rpc_observer_info`. -/
structure mg_rpc_observer_info where
  cb : Nat
deriving DecidableEq, Repr

/-- `struct mg_rpc`: the multiplexer instance.  `next_ref` is the model's
allocation counter for record identities (not a C field). -/
structure mg_rpc where
  cfg : mg_rpc_cfg
  next_id : Int
  queue_len : Int
  local_ids : List String
  prehandler : Option Nat
  handlers : List mg_rpc_handler_info
  channels : List mg_rpc_channel_info_internal
  requests : List mg_rpc_sent_request_info
  observers : List mg_rpc_observer_info
  queue : List mg_rpc_queue_entry
  next_ref : Nat
deriving DecidableEq, Repr

/-- `enum mg_rpc_event` (observer events). -/
inductive MgRpcEvent where
  | EV_CHANNEL_OPEN
  | EV_CHANNEL_CLOSED
deriving DecidableEq, Repr

/-- Trace events: interactions with external collaborators. -/
inductive Ev where
  | chSend (chRef : Nat) (f : OutFrame) (ok : Bool)
  | chConnect (chRef : Nat)
  | chClose (chRef : Nat)
  | chDestroy (chRef : Nat)
  | observerCb (cb : Nat) (ev : MgRpcEvent) (dst : String)
  | resultCb (cb : Nat) (result : String) (error_code : Int) (error_msg : String)
  | requestStart (method : String)
  | prehandlerCb (cb : Nat) (id : Int) (method : String)
  | handlerCb (cb : Nat) (id : Int) (method : String) (args : String)
deriving DecidableEq, Repr

/-- World: the multiplexer state plus the environment's oracle streams —
`oracle` holds the transport's answers to `send_frame`, consumed one per
attempted send; `rands` holds the `rand()` increments for id generation. -/
structure W where
  c : mg_rpc
  oracle : List Bool
  rands : List Int
deriving DecidableEq, Repr

/-- Environment: the external collaborators the translated code calls.
`ws_out` takes the canonicalised destination, the URI fragment and the
configuration (the fragment key/value plumbing of lines 173–215 only feeds
this factory).  `dstDefault` is the `MG_RPC_DST_DEFAULT` literal from the
header.  `prehOk` is the installed prehandler's verdict. -/
structure Env where
  parse_uri : String → Option UriParts
  assemble_uri : UriParts → Option String
  ws_out : String → String → mg_rpc_cfg → Option Chan
  dstDefault : String
  prehOk : Int → String → String → Bool

/-- Update the first element satisfying `p` (in-place mutation of the node a
first-match list traversal found). -/
def updFirst (p : α → Bool) (f : α → α) : List α → List α
  | [] => []
  | x :: xs => if p x then f x :: xs else x :: updFirst p f xs

/-! ## Frame codec (mg_rpc_parse_frame) -/

/-- Per-field outcome of the external JSON scanner on an input buffer: `none`
means the field was absent (the scanner left the zero-initialised token).
`result` carries whether the matched token was a JSON string
(`JSON_TYPE_STRING`), which triggers the quote-widening step. -/
structure ScanInput where
  v : Option Int
  id : Option Int
  src : Option String
  dst : Option String
  tag : Option String
  method : Option String
  args : Option String
  auth : Option String
  result : Option (Bool × String)
  error_code : Option Int
  error_msg : Option String
deriving DecidableEq, Repr

/-- Number of fields the scanner recognised (the `json_scanf` return value
for a well-formed object; a malformed buffer recognises no fields). -/
def ScanInput.count (s : ScanInput) : Nat :=
  (if s.v.isSome then 1 else 0) + (if s.id.isSome then 1 else 0) +
  (if s.src.isSome then 1 else 0) + (if s.dst.isSome then 1 else 0) +
  (if s.tag.isSome then 1 else 0) + (if s.method.isSome then 1 else 0) +
  (if s.args.isSome then 1 else 0) + (if s.auth.isSome then 1 else 0) +
  (if s.result.isSome then 1 else 0) + (if s.error_code.isSome then 1 else 0) +
  (if s.error_msg.isSome then 1 else 0)

/-- `mg_rpc_parse_frame`: fails when the scanner recognised fewer than one
field; otherwise fills the frame, widening a string-typed `result` so the
surrounding quotes are included, and leaving absent fields at their
zero-initialised defaults. -/
def mg_rpc_parse_frame (s : ScanInput) : Option mg_rpc_frame :=
  if s.count < 1 then none
  else some
    { version := s.v.getD 0
      id := s.id.getD 0
      src := s.src.getD ""
      dst := s.dst.getD ""
      tag := s.tag.getD ""
      method := s.method.getD ""
      args := s.args.getD ""
      result :=
        match s.result with
        | none => ""
        | some (isStr, r) => if isStr then "\"" ++ r ++ "\"" else r
      error_code := s.error_code.getD 0
      error_msg := s.error_msg.getD ""
      auth := s.auth.getD "" }

/-! ## Response dispatch (mg_rpc_handle_response) -/

/-- `mg_rpc_handle_response`: id 0 is malformed; otherwise scan the
pending-request table for the id; silently drop when absent; otherwise
unlink the record and invoke its stored callback with the result span, the
error code and the error-message span.  (The `frame_info` handed to the
callback only carries the channel type string; it is not modelled.) -/
def mg_rpc_handle_response (c : mg_rpc) (id : Int) (result : String)
    (error_code : Int) (error_msg : String) : Bool × mg_rpc × List Ev :=
  if id == 0 then
    (false, c, [])
  else
    match c.requests.find? (fun ri => ri.id == id) with
    | none => (true, c, [])
    | some ri =>
      (true, { c with requests := c.requests.eraseP (fun r => r.id == id) },
       [Ev.resultCb ri.cb result error_code error_msg])

/-! ## Local identities (is_local_id, mg_rpc_add_local_id) -/

/-- `is_local_id`: walk the NUL-separated local-id strings, comparing
byte-exact. -/
def is_local_id (c : mg_rpc) (id : String) : Bool :=
  c.local_ids.any (fun lid => id == lid)

/-- `mg_rpc_add_local_id`: empty ids are ignored, others appended. -/
def mg_rpc_add_local_id (c : mg_rpc) (id : String) : mg_rpc :=
  if id.length == 0 then c
  else { c with local_ids := c.local_ids ++ [id] }

/-- `mg_rpc_create`: empty tables, local-id set seeded from the config id. -/
def mg_rpc_create (cfg : mg_rpc_cfg) : mg_rpc :=
  mg_rpc_add_local_id
    { cfg := cfg, next_id := 0, queue_len := 0, local_ids := [],
      prehandler := none, handlers := [], channels := [], requests := [],
      observers := [], queue := [], next_ref := 0 }
    cfg.id

/-! ## Channel registry and destination resolution -/

/-- `mg_rpc_get_channel_info_internal`: first entry whose channel object is
`ch` (by pointer). -/
def mg_rpc_get_channel_info_internal (c : mg_rpc) (chRef : Nat) :
    Option mg_rpc_channel_info_internal :=
  c.channels.find? (fun ci => ci.ch.ref == chRef)

/-- `canonicalize_dst_uri`: reassemble the parsed URI without its fragment,
normalising the path (delegated to the external `mg_assemble_uri`). -/
def canonicalize_dst_uri (env : Env) (p : UriParts) : Option String :=
  env.assemble_uri { p with fragment := "" }

/-- `dst_is_equal`: byte compare two plain ids, canonicalise-and-compare two
URIs, and treat a URI vs a plain id as unequal. -/
def dst_is_equal (env : Env) (d1 d2 : String) : Bool :=
  match env.parse_uri d1, env.parse_uri d2 with
  | none, none => d1 == d2
  | some p1, some p2 =>
    match canonicalize_dst_uri env p1, canonicalize_dst_uri env p2 with
    | some u1, some u2 => u1 == u2
    | _, _ => false
  | _, _ => false

/-- `mg_rpc_add_channel_internal`: fresh zeroed entry at the head of the
channel list (open and busy cleared), destination copied when non-empty.
Returns the new entry's ref. -/
def mg_rpc_add_channel_internal (c : mg_rpc) (dst : String) (ch : Chan) :
    mg_rpc × Nat :=
  let ci : mg_rpc_channel_info_internal :=
    { ref := c.next_ref, dst := if dst.length != 0 then dst else "", ch := ch,
      is_open := false, is_busy := false }
  ({ c with channels := ci :: c.channels, next_ref := c.next_ref + 1 }, c.next_ref)

/-- `mg_rpc_add_channel`. -/
def mg_rpc_add_channel (c : mg_rpc) (dst : String) (ch : Chan) : mg_rpc :=
  (mg_rpc_add_channel_internal c dst ch).1

/-- The channel-list scan of `mg_rpc_get_channel_info_internal_by_dst`:
first equality match wins; while scanning, remember the latest entry whose
destination is the default-destination sentinel. -/
def chanScan (env : Env) (dst : String)
    (default_ch : Option mg_rpc_channel_info_internal) :
    List mg_rpc_channel_info_internal →
    Option mg_rpc_channel_info_internal × Option mg_rpc_channel_info_internal
  | [] => (none, default_ch)
  | ci :: rest =>
    if dst.length != 0 && dst_is_equal env dst ci.dst then (some ci, default_ch)
    else
      chanScan env dst (if ci.dst == env.dstDefault then some ci else default_ch) rest

/-- `mg_rpc_get_channel_info_internal_by_dst`: resolve a destination to a
channel entry, possibly dialing a fresh outbound websocket channel for a
`ws`/`wss`/`http`/`https` URI.  Returns (entry ref, updated state, updated
destination — blanked for URI destinations, which are point-to-point hints —
trace). -/
def mg_rpc_get_channel_info_internal_by_dst (env : Env) (c : mg_rpc)
    (dst : String) : Option Nat × mg_rpc × String × List Ev :=
  let uriP := if dst.length > 0 then env.parse_uri dst else none
  let is_uri : Bool :=
    match uriP with
    | some p => p.scheme.length > 0
    | none => false
  match chanScan env dst none c.channels with
  | (some ci, _) => (some ci.ref, c, if is_uri then "" else dst, [])
  | (none, default_ch) =>
    if is_uri then
      match uriP with
      | some p =>
        if p.scheme == "ws" || p.scheme == "wss" || p.scheme == "http"
            || p.scheme == "https" then
          let canon := (canonicalize_dst_uri env p).getD ""
          match env.ws_out canon p.fragment c.cfg with
          | some ch =>
            let (c1, r) := mg_rpc_add_channel_internal c canon ch
            (some r, c1, "", [Ev.chConnect ch.ref])
          | none => (none, c, "", [])
        else (none, c, "", [])
      | none => (none, c, "", [])
    else (default_ch.map (fun ci => ci.ref), c, dst, [])

/-! ## Queue engine -/

/-- `mg_rpc_send_frame`: fail when the entry is missing, closed or busy;
otherwise hand the frame to the transport (oracle) and mark the entry busy on
transport success. -/
def mg_rpc_send_frame (w : W) (ciRef : Option Nat) (f : OutFrame) :
    Bool × W × List Ev :=
  match ciRef.bind (fun r => w.c.channels.find? (fun e => e.ref == r)) with
  | none => (false, w, [])
  | some ci =>
    if !ci.is_open || ci.is_busy then (false, w, [])
    else
      let result := w.oracle.headD false
      let w1 : W := { w with oracle := w.oracle.tail }
      if result then
        let chs := updFirst (fun e => e.ref == ci.ref)
          (fun e => { e with is_busy := true }) w1.c.channels
        (true, { w1 with c := { w1.c with channels := chs } },
         [Ev.chSend ci.ch.ref f true])
      else (false, w1, [Ev.chSend ci.ch.ref f false])

/-- `mg_rpc_enqueue_frame`: refuse when the queue is full, else append a new
entry (destination copied, channel pinned) at the tail and bump the length. -/
def mg_rpc_enqueue_frame (c : mg_rpc) (ci : Option Nat) (dst : String)
    (f : OutFrame) : Bool × mg_rpc :=
  if c.queue_len ≥ c.cfg.max_queue_length then (false, c)
  else
    let qe : mg_rpc_queue_entry :=
      { ref := c.next_ref, dst := dst, frame := f, ci := ci }
    let c1 := { c with queue := c.queue ++ [qe]
                       queue_len := c.queue_len + 1
                       next_ref := c.next_ref + 1 }
    (true, c1)

/-- `mg_rpc_remove_queue_entry`: unlink the given node and decrement the
length counter. -/
def mg_rpc_remove_queue_entry (c : mg_rpc) (qe : mg_rpc_queue_entry) : mg_rpc :=
  { c with queue := c.queue.eraseP (fun e => e.ref == qe.ref)
           queue_len := c.queue_len - 1 }

/-- The `STAILQ_FOREACH_SAFE` walk of `mg_rpc_process_queue` over a snapshot
of the queue nodes: resolve each entry's channel (pinned if present, else by
its stored destination — the local destination copy the resolver may blank is
discarded), attempt a send, remove the node on success. -/
def mg_rpc_process_queue_go (env : Env) (w : W) :
    List mg_rpc_queue_entry → W × List Ev
  | [] => (w, [])
  | qe :: tqe =>
    let (ciRef, c1, t1) :=
      match qe.ci with
      | some r => (some r, w.c, ([] : List Ev))
      | none =>
        let (r, c1, _d, t) := mg_rpc_get_channel_info_internal_by_dst env w.c qe.dst
        (r, c1, t)
    let w1 : W := { w with c := c1 }
    let (ok, w2, t2) := mg_rpc_send_frame w1 ciRef qe.frame
    let w3 := if ok then { w2 with c := mg_rpc_remove_queue_entry w2.c qe } else w2
    let (w4, t3) := mg_rpc_process_queue_go env w3 tqe
    (w4, t1 ++ t2 ++ t3)

/-- `mg_rpc_process_queue`. -/
def mg_rpc_process_queue (env : Env) (w : W) : W × List Ev :=
  mg_rpc_process_queue_go env w w.c.queue

/-- `mg_rpc_dispatch_frame`: resolve the channel when none was pinned, build
the frame (src defaulting to the first local id), try a direct send, else
enqueue when permitted (under the caller's original destination), else drop. -/
def mg_rpc_dispatch_frame (env : Env) (w : W) (src dst : String) (id : Int)
    (tag key : String) (ci : Option Nat) (enqueue : Bool) (payload : Payload) :
    Bool × W × List Ev :=
  let (ciR, c1, final_dst, t0) :=
    match ci with
    | some r => (some r, w.c, dst, ([] : List Ev))
    | none =>
      let (r, c1, d1, t) := mg_rpc_get_channel_info_internal_by_dst env w.c dst
      (r, c1, d1, t)
  let w1 : W := { w with c := c1 }
  let srcF := if src.length > 0 then src else w1.c.local_ids.headD ""
  let f : OutFrame :=
    { id := id, src := srcF, dst := final_dst, tag := tag, key := key,
      payload := payload }
  let (ok, w2, t1) := mg_rpc_send_frame w1 ciR f
  if ok then (true, w2, t0 ++ t1)
  else if enqueue then
    let (qok, c3) := mg_rpc_enqueue_frame w2.c ciR dst f
    (qok, { w2 with c := c3 }, t0 ++ t1)
  else (false, w2, t0 ++ t1)

/-! ## Requests, responses, errors -/

/-- `struct mg_rpc_request_info` (the fields the translated code reads;
`ch` is the borrowed channel object reference). -/
structure mg_rpc_request_info where
  id : Int
  src : String
  dst : String
  tag : String
  auth : String
  method : String
  args_fmt : String
  chRef : Nat
deriving DecidableEq, Repr

/-- `send_errorf`: compose the `error` payload (the message is included only
when the rendered text is non-empty) and dispatch it with src/dst swapped
from the originating request, queueing permitted. -/
def send_errorf (env : Env) (w : W) (ri : mg_rpc_request_info)
    (error_code : Int) (_is_json : Bool) (error_msg : Option String) :
    Bool × W × List Ev :=
  let msg :=
    match error_msg with
    | none => none
    | some m => if m.length > 0 then some m else none
  let ci := mg_rpc_get_channel_info_internal w.c ri.chRef
  mg_rpc_dispatch_frame env w ri.dst ri.src ri.id ri.tag ""
    (ci.map (fun e => e.ref)) true (Payload.error error_code msg)

/-- `mg_rpc_send_errorf` (plain-text message variant). -/
def mg_rpc_send_errorf (env : Env) (w : W) (ri : mg_rpc_request_info)
    (error_code : Int) (error_msg : Option String) : Bool × W × List Ev :=
  send_errorf env w ri error_code false error_msg

/-- `mg_rpc_send_error_jsonf` (JSON message variant). -/
def mg_rpc_send_error_jsonf (env : Env) (w : W) (ri : mg_rpc_request_info)
    (error_code : Int) (error_msg : Option String) : Bool × W × List Ev :=
  send_errorf env w ri error_code true error_msg

/-- `mg_rpc_send_responsef`: a `NULL` format responds with literal `null`;
src/dst swapped from the originating request, queueing permitted. -/
def mg_rpc_send_responsef (env : Env) (w : W) (ri : mg_rpc_request_info)
    (result_json : Option String) : Bool × W × List Ev :=
  let body := result_json.getD "null"
  let ci := mg_rpc_get_channel_info_internal w.c ri.chRef
  mg_rpc_dispatch_frame env w ri.dst ri.src ri.id ri.tag ""
    (ci.map (fun e => e.ref)) true (Payload.result body)

/-- `mg_rpc_handle_request`: build the request info, look up the first
handler with a byte-equal method name; with no handler, send a 404 error
frame and report success; otherwise consult the prehandler (if installed)
and, when it agrees, invoke the handler.  Always reports success. -/
def mg_rpc_handle_request (env : Env) (w : W)
    (ci : mg_rpc_channel_info_internal) (frame : mg_rpc_frame) :
    Bool × W × List Ev :=
  let ri : mg_rpc_request_info :=
    { id := frame.id, src := frame.src, dst := frame.dst, tag := frame.tag,
      auth := frame.auth, method := frame.method, args_fmt := "",
      chRef := ci.ch.ref }
  match w.c.handlers.find? (fun hi => frame.method == hi.method) with
  | none =>
    let (_, w1, t1) := send_errorf env w ri 404 false
      (some ("No handler for " ++ frame.method))
    (true, w1, Ev.requestStart frame.method :: t1)
  | some hi =>
    let ri1 := { ri with args_fmt := hi.args_fmt }
    let (ok, t1) :=
      match w.c.prehandler with
      | none => (true, ([] : List Ev))
      | some ph => (env.prehOk frame.id frame.method frame.args,
                    [Ev.prehandlerCb ph frame.id frame.method])
    let t2 := if ok then [Ev.handlerCb hi.cb ri1.id ri1.method frame.args] else []
    (true, w, Ev.requestStart frame.method :: (t1 ++ t2))

/-- `mg_rpc_handle_frame`: drop frames from closed channels; drop frames
whose non-empty destination is not a local identity; bind a first-contact
destination; then dispatch by presence of a method name. -/
def mg_rpc_handle_frame (env : Env) (w : W)
    (ci : mg_rpc_channel_info_internal) (frame : mg_rpc_frame) :
    Bool × W × List Ev :=
  if !ci.is_open then (false, w, [])
  else if frame.dst.length != 0 && !(is_local_id w.c frame.dst) then
    (false, w, [])
  else
    let (ci1, w1) :=
      if ci.dst.length == 0 then
        let chs := updFirst (fun e => e.ch.ref == ci.ch.ref)
          (fun e => { e with dst := frame.src }) w.c.channels
        ({ ci with dst := frame.src },
         { w with c := { w.c with channels := chs } })
      else (ci, w)
    if frame.method.length > 0 then
      mg_rpc_handle_request env w1 ci1 frame
    else
      let (ok, c2, t) := mg_rpc_handle_response w1.c frame.id frame.result
        frame.error_code frame.error_msg
      (ok, { w1 with c := c2 }, t)

/-! ## Channel lifecycle (mg_rpc_ev_handler) -/

/-- `enum mg_rpc_channel_event`.  `FRAME_RECD` carries the scanner's view of
the raw byte string. -/
inductive ChannelEvent where
  | OPEN
  | FRAME_RECD (f : ScanInput)
  | FRAME_RECD_PARSED (f : mg_rpc_frame)
  | FRAME_SENT (success : Bool)
  | CLOSED
deriving DecidableEq, Repr

/-- `mg_rpc_call_observers`. -/
def mg_rpc_call_observers (c : mg_rpc) (ev : MgRpcEvent) (dst : String) :
    List Ev :=
  c.observers.map (fun oi => Ev.observerCb oi.cb ev dst)

/-- The `STAILQ_FOREACH_SAFE` purge in the `CLOSED` branch: remove every
queue node pinned to the closing channel entry. -/
def mg_rpc_closed_purge_go (ciRef : Nat) (c : mg_rpc) :
    List mg_rpc_queue_entry → mg_rpc
  | [] => c
  | qe :: tqe =>
    mg_rpc_closed_purge_go ciRef
      (if qe.ci == some ciRef then mg_rpc_remove_queue_entry c qe else c) tqe

/-- `mg_rpc_ev_handler`: the per-channel lifecycle state machine. -/
def mg_rpc_ev_handler (env : Env) (w : W) (chRef : Nat) (ev : ChannelEvent) :
    W × List Ev :=
  match w.c.channels.find? (fun ci => ci.ch.ref == chRef) with
  | none => (w, [])
  | some ci =>
    match ev with
    | ChannelEvent.OPEN =>
      let chs := updFirst (fun e => e.ch.ref == chRef)
        (fun e => { e with is_open := true, is_busy := false }) w.c.channels
      let w1 : W := { w with c := { w.c with channels := chs } }
      let (w2, t1) := mg_rpc_process_queue env w1
      let t2 := if ci.dst.length > 0 then
          mg_rpc_call_observers w2.c MgRpcEvent.EV_CHANNEL_OPEN ci.dst
        else []
      (w2, t1 ++ t2)
    | ChannelEvent.FRAME_RECD f =>
      match mg_rpc_parse_frame f with
      | none => (w, if !ci.ch.is_persistent then [Ev.chClose chRef] else [])
      | some frame =>
        let (ok, w1, t1) := mg_rpc_handle_frame env w ci frame
        if !ok then
          (w1, t1 ++ (if !ci.ch.is_persistent then [Ev.chClose chRef] else []))
        else (w1, t1)
    | ChannelEvent.FRAME_RECD_PARSED frame =>
      let (ok, w1, t1) := mg_rpc_handle_frame env w ci frame
      if !ok then
        (w1, t1 ++ (if !ci.ch.is_persistent then [Ev.chClose chRef] else []))
      else (w1, t1)
    | ChannelEvent.FRAME_SENT _success =>
      let chs := updFirst (fun e => e.ch.ref == chRef)
        (fun e => { e with is_busy := false }) w.c.channels
      let w1 : W := { w with c := { w.c with channels := chs } }
      mg_rpc_process_queue env w1
    | ChannelEvent.CLOSED =>
      let rm := !ci.ch.is_persistent
      let chs := updFirst (fun e => e.ch.ref == chRef)
        (fun e => { e with is_open := false, is_busy := false }) w.c.channels
      let w1 : W := { w with c := { w.c with channels := chs } }
      let t1 := if ci.dst.length > 0 then
          mg_rpc_call_observers w1.c MgRpcEvent.EV_CHANNEL_CLOSED ci.dst
        else []
      if rm then
        let c2 := mg_rpc_closed_purge_go ci.ref w1.c w1.c.queue
        let chs2 := c2.channels.eraseP (fun e => e.ref == ci.ref)
        let c3 := { c2 with channels := chs2 }
        ({ w1 with c := c3 }, t1 ++ [Ev.chDestroy chRef])
      else (w1, t1)

/-! ## Outgoing calls (mg_rpc_vcallf) -/

/-- `mg_rpc_get_id`: accumulate a `rand()` increment on the id seed. -/
def mg_rpc_get_id (w : W) : Int × W :=
  let id := w.c.next_id + w.rands.headD 0
  (id, { w with c := { w.c with next_id := id }, rands := w.rands.tail })

/-- The broadcast loop of `mg_rpc_vcallf`: dispatch directly (no queueing) to
every channel whose transport enables broadcast; the overall result is the
logical OR. -/
def mg_rpc_broadcast_go (env : Env) (w : W) (src dst : String) (id : Int)
    (tag key : String) (payload : Payload) :
    List mg_rpc_channel_info_internal → Bool × W × List Ev
  | [] => (false, w, [])
  | ci :: rest =>
    match ci.ch.is_broadcast_enabled with
    | none => mg_rpc_broadcast_go env w src dst id tag key payload rest
    | some b =>
      if !b then mg_rpc_broadcast_go env w src dst id tag key payload rest
      else
        let (r, w1, t1) := mg_rpc_dispatch_frame env w src dst id tag key
          (some ci.ref) false payload
        let (r2, w2, t2) :=
          mg_rpc_broadcast_go env w1 src dst id tag key payload rest
        (r || r2, w2, t1 ++ t2)

/-- `mg_rpc_vcallf`.  `c_null` models a NULL multiplexer pointer (an early
`false` return).  The result is `none` exactly when the function would
dereference a NULL `opts` (the unconditional `opts->src` / `opts->broadcast`
reads); the guarded `opts` reads before that point are modelled as written. -/
def mg_rpc_vcallf (env : Env) (c_null : Bool) (w : W) (method : String)
    (cb : Option Nat) (opts : Option mg_rpc_call_opts)
    (args_jsonf : Option String) : Option (Bool × W × List Ev) :=
  if c_null then some (false, w, []) else
  let (id, w1) := mg_rpc_get_id w
  let dst := match opts with
    | some o => if o.dst.length > 0 then o.dst else ""
    | none => ""
  let tag := match opts with
    | some o => if o.tag.length > 0 then o.tag else ""
    | none => ""
  let key := match opts with
    | some o => if o.key.length > 0 then o.key else ""
    | none => ""
  let ri : Option mg_rpc_sent_request_info :=
    match cb with
    | some cbv => some { id := id, cb := cbv }
    | none => none
  -- with no callback, the frame carries the "nr":true no-response marker
  let payload := Payload.call cb.isNone method args_jsonf
  match opts with
  | none => none   -- the source dereferences opts->src unconditionally here
  | some o =>
    let src := if o.src.length == 0 then w1.c.cfg.id else o.src
    let (result, w2, t) :=
      if !o.broadcast then
        -- the source's NULL-opts fallback for enqueue is unreachable here
        let enqueue := !o.no_queue
        mg_rpc_dispatch_frame env w1 src dst id tag key none enqueue payload
      else
        mg_rpc_broadcast_go env w1 src dst id tag key payload w1.c.channels
    match ri with
    | some r =>
      if result then
        some (true, { w2 with c := { w2.c with requests := r :: w2.c.requests } }, t)
      else some (false, w2, t)
    | none => some (false, w2, t)

/-- `mg_rpc_callf` (varargs wrapper over `mg_rpc_vcallf`). -/
def mg_rpc_callf (env : Env) (c_null : Bool) (w : W) (method : String)
    (cb : Option Nat) (opts : Option mg_rpc_call_opts)
    (args_jsonf : Option String) : Option (Bool × W × List Ev) :=
  mg_rpc_vcallf env c_null w method cb opts args_jsonf

/-! ## Remaining façade operations -/

/-- `mg_rpc_add_handler` (head insertion, no duplicate check). -/
def mg_rpc_add_handler (c : mg_rpc) (method args_fmt : String) (cb : Nat) :
    mg_rpc :=
  let hi : mg_rpc_handler_info := { method := method, args_fmt := args_fmt, cb := cb }
  { c with handlers := hi :: c.handlers }

/-- `mg_rpc_set_prehandler`. -/
def mg_rpc_set_prehandler (c : mg_rpc) (cb : Option Nat) : mg_rpc :=
  { c with prehandler := cb }

/-- `mg_rpc_add_observer`. -/
def mg_rpc_add_observer (c : mg_rpc) (cb : Nat) : mg_rpc :=
  { c with observers := { cb := cb } :: c.observers }

/-- `mg_rpc_remove_observer` (first match on the callback pair). -/
def mg_rpc_remove_observer (c : mg_rpc) (cb : Nat) : mg_rpc :=
  { c with observers := c.observers.eraseP (fun oi => oi.cb == cb) }

/-- `mg_rpc_connect`: request connect on every registered channel. -/
def mg_rpc_connect (c : mg_rpc) : List Ev :=
  c.channels.map (fun ci => Ev.chConnect ci.ch.ref)

/-- `mg_rpc_disconnect`: request close on every registered channel. -/
def mg_rpc_disconnect (c : mg_rpc) : List Ev :=
  c.channels.map (fun ci => Ev.chClose ci.ch.ref)

/-- `mg_rpc_is_connected`: probe the default destination (the resolver may
dial, hence the updated state). -/
def mg_rpc_is_connected (env : Env) (c : mg_rpc) : Bool × mg_rpc :=
  let (r, c1, _d, _t) :=
    mg_rpc_get_channel_info_internal_by_dst env c env.dstDefault
  (match r.bind (fun ref => c1.channels.find? (fun e => e.ref == ref)) with
   | some ci => ci.is_open
   | none => false, c1)

/-- `mg_rpc_can_send`: as `mg_rpc_is_connected`, also requiring not busy. -/
def mg_rpc_can_send (env : Env) (c : mg_rpc) : Bool × mg_rpc :=
  let (r, c1, _d, _t) :=
    mg_rpc_get_channel_info_internal_by_dst env c env.dstDefault
  (match r.bind (fun ref => c1.channels.find? (fun e => e.ref == ref)) with
   | some ci => ci.is_open && !ci.is_busy
   | none => false, c1)

/-! ## The operation alphabet -/

/-- One multiplexer operation or channel event — the alphabet over which the
state invariants are stated.  `callf` carries a non-NULL `opts` record (a
NULL `opts` is undefined behaviour, see the safety claim). -/
inductive Op where
  | chEv (chRef : Nat) (ev : ChannelEvent)
  | callf (method : String) (cb : Option Nat) (o : mg_rpc_call_opts)
      (args_jsonf : Option String)
  | sendResponse (ri : mg_rpc_request_info) (result_json : Option String)
  | sendError (ri : mg_rpc_request_info) (code : Int) (msg : Option String)
  | sendErrorJson (ri : mg_rpc_request_info) (code : Int) (msg : Option String)
  | addChannel (dst : String) (ch : Chan)
  | addHandler (method args_fmt : String) (cb : Nat)
  | addObserver (cb : Nat)
  | removeObserver (cb : Nat)
  | addLocalId (id : String)
  | setPrehandler (cb : Option Nat)
  | connect
  | disconnect
  | isConnected
  | canSend
deriving DecidableEq, Repr

/-- Apply one operation to the world. -/
def step (env : Env) (w : W) : Op → W
  | Op.chEv chRef ev => (mg_rpc_ev_handler env w chRef ev).1
  | Op.callf m cb o fmt =>
    match mg_rpc_vcallf env false w m cb (some o) fmt with
    | some (_, w1, _) => w1
    | none => w
  | Op.sendResponse ri body => (mg_rpc_send_responsef env w ri body).2.1
  | Op.sendError ri code msg => (mg_rpc_send_errorf env w ri code msg).2.1
  | Op.sendErrorJson ri code msg =>
    (mg_rpc_send_error_jsonf env w ri code msg).2.1
  | Op.addChannel dst ch => { w with c := mg_rpc_add_channel w.c dst ch }
  | Op.addHandler m fmt cb => { w with c := mg_rpc_add_handler w.c m fmt cb }
  | Op.addObserver cb => { w with c := mg_rpc_add_observer w.c cb }
  | Op.removeObserver cb => { w with c := mg_rpc_remove_observer w.c cb }
  | Op.addLocalId id => { w with c := mg_rpc_add_local_id w.c id }
  | Op.setPrehandler cb => { w with c := mg_rpc_set_prehandler w.c cb }
  | Op.connect => w
  | Op.disconnect => w
  | Op.isConnected => { w with c := (mg_rpc_is_connected env w.c).2 }
  | Op.canSend => { w with c := (mg_rpc_can_send env w.c).2 }

/-! ## Concrete fixtures used by witnesses and counterexamples -/

/-- A concrete environment: no URI support, no dialing, the default
destination sentinel is the asterisk, the prehandler approves. -/
def env0 : Env :=
  { parse_uri := fun _ => none
    assemble_uri := fun _ => none
    ws_out := fun _ _ _ => none
    dstDefault := "*"
    prehOk := fun _ _ _ => true }

/-- A concrete configuration. -/
def cfg0 : mg_rpc_cfg :=
  { id := "me", max_queue_length := 16, default_out_channel_idle_close_timeout := 0 }

/-- A concrete persistent broadcast-enabled channel object. -/
def chan0 : Chan := { ref := 0, is_persistent := true, is_broadcast_enabled := some true }

/-- A concrete open, idle channel entry bound to the default destination. -/
def ci0 : mg_rpc_channel_info_internal :=
  { ref := 0, dst := "*", ch := chan0, is_open := true, is_busy := false }

/-- A concrete multiplexer with the single channel entry `ci0`. -/
def c0 : mg_rpc :=
  { cfg := cfg0, next_id := 0, queue_len := 0, local_ids := ["me"], prehandler := none,
    handlers := [], channels := [ci0], requests := [], observers := [], queue := [],
    next_ref := 1 }

/-- A concrete world over `c0`: the transport will accept one send. -/
def w0 : W := { c := c0, oracle := [true], rands := [5] }

/-- Default call options: no destination, no broadcast, queueing allowed. -/
def opts0 : mg_rpc_call_opts :=
  { dst := "", src := "", tag := "", key := "", broadcast := false, no_queue := false }

/-! ## Claim C8 — frame parsing -/

/-- Claim C8: `mg_rpc_parse_frame` fails exactly when the scanner recognised
zero fields; with at least one recognised field it succeeds and every absent
field is left at its default — empty span for the string/object fields, zero
for id, version and error code. -/
theorem C8_parse_frame_defaults (s : ScanInput) :
    (mg_rpc_parse_frame s = none ↔ s.count = 0) ∧
    (1 ≤ s.count →
      ∃ fr, mg_rpc_parse_frame s = some fr ∧
        (s.v = none → fr.version = 0) ∧
        (s.id = none → fr.id = 0) ∧
        (s.src = none → fr.src = "") ∧
        (s.dst = none → fr.dst = "") ∧
        (s.tag = none → fr.tag = "") ∧
        (s.method = none → fr.method = "") ∧
        (s.args = none → fr.args = "") ∧
        (s.auth = none → fr.auth = "") ∧
        (s.result = none → fr.result = "") ∧
        (s.error_code = none → fr.error_code = 0) ∧
        (s.error_msg = none → fr.error_msg = "")) := by
  constructor
  · unfold mg_rpc_parse_frame
    by_cases h : s.count < 1
    · simp [h]; omega
    · simp [h]; omega
  · intro h
    have h1 : ¬ s.count < 1 := by omega
    unfold mg_rpc_parse_frame
    rw [if_neg h1]
    refine ⟨_, rfl, ?_, ?_, ?_, ?_, ?_, ?_, ?_, ?_, ?_, ?_, ?_⟩ <;>
      (intro he; simp [he])

/-- Claim C8 witness: a buffer in which only `method` was recognised parses
successfully with all other fields at their defaults. -/
theorem C8_witness :
    ∃ fr,
      mg_rpc_parse_frame
        { v := none, id := none, src := none, dst := none, tag := none,
          method := some "M", args := none, auth := none, result := none,
          error_code := none, error_msg := none } = some fr ∧
      (none = (none : Option Int) → fr.version = 0) ∧
      (none = (none : Option Int) → fr.id = 0) ∧
      (none = (none : Option String) → fr.src = "") ∧
      (none = (none : Option String) → fr.dst = "") ∧
      (none = (none : Option String) → fr.tag = "") ∧
      (some "M" = (none : Option String) → fr.method = "") ∧
      (none = (none : Option String) → fr.args = "") ∧
      (none = (none : Option String) → fr.auth = "") ∧
      (none = (none : Option (Bool × String)) → fr.result = "") ∧
      (none = (none : Option Int) → fr.error_code = 0) ∧
      (none = (none : Option String) → fr.error_msg = "") :=
  (C8_parse_frame_defaults
    { v := none, id := none, src := none, dst := none, tag := none,
      method := some "M", args := none, auth := none, result := none,
      error_code := none, error_msg := none }).2 (by decide)

/-! ## Claim C9 — callf requires a non-NULL opts -/

/-- Claim C9: with a non-NULL multiplexer, every call through
`mg_rpc_vcallf` is defined precisely when `opts` is non-NULL: the function
unconditionally dereferences `opts->src` and `opts->broadcast`, so a NULL
`opts` is undefined (modelled as `none`), while under the precondition
`opts ≠ NULL` every dereference — including the ones the source guards
against NULL — is defined. -/
theorem C9_vcallf_opts_precondition (env : Env) (w : W) (method : String)
    (cb : Option Nat) (args_jsonf : Option String) :
    (∀ o : mg_rpc_call_opts,
      (mg_rpc_vcallf env false w method cb (some o) args_jsonf).isSome = true) ∧
    mg_rpc_vcallf env false w method cb none args_jsonf = none := by
  constructor
  · intro o
    unfold mg_rpc_vcallf
    simp only [Bool.false_eq_true, if_false]
    repeat' split
    all_goals simp
  · rfl

/-! ## Claim C1 — pending-request round trip -/

/-- The multiplexer `c0` with one pending request whose id is zero (an id a
`callf` with a callback can allocate, since the id accumulates environment
`rand()` increments). -/
def cC1 : mg_rpc := { c0 with requests := [{ id := 0, cb := 9 }] }

/-- Claim C1 counterexample: a response whose id (0) matches the pending
request's id is handled, yet the stored callback is not invoked, the
pending-request record is not removed, and the handler reports failure
(rather than dropping without error): `mg_rpc_handle_response` rejects id 0
before scanning the table, which the claim does not except. -/
theorem C1_counterexample :
    cC1.requests.find? (fun r => r.id == 0) = some { id := 0, cb := 9 } ∧
    mg_rpc_handle_response cC1 0 "r" 0 "" = (false, cC1, []) := by
  exact ⟨rfl, rfl⟩

/-- Claim C1 (amended): for a response with a non-zero id, if the id matches
a pending request, the stored callback is invoked exactly once with the
result span, error code and error-message span, and the pending record is
unlinked; if it matches no pending request, no callback is invoked and the
response is dropped without error. -/
theorem C1_response_round_trip (c : mg_rpc) (id : Int) (res : String)
    (ec : Int) (em : String) (hid : id ≠ 0) :
    (∀ ri, c.requests.find? (fun r => r.id == id) = some ri →
      mg_rpc_handle_response c id res ec em =
        (true, { c with requests := c.requests.eraseP (fun r => r.id == id) },
         [Ev.resultCb ri.cb res ec em])) ∧
    (c.requests.find? (fun r => r.id == id) = none →
      mg_rpc_handle_response c id res ec em = (true, c, [])) := by
  have hbeq : (id == 0) = false := by
    simp [hid]
  constructor
  · intro ri hri
    unfold mg_rpc_handle_response
    rw [hbeq, if_neg (by simp), hri]
  · intro hnone
    unfold mg_rpc_handle_response
    rw [hbeq, if_neg (by simp), hnone]

/-- Claim C1 witness: on `cC1` with the non-zero id 42 present, the callback
fires exactly once and the record is removed; with the absent id 43 nothing
fires and the response is dropped successfully. -/
theorem C1_witness :
    (mg_rpc_handle_response { c0 with requests := [{ id := 42, cb := 9 }] } 42 "res" 0 "" =
      (true, { { c0 with requests := [{ id := 42, cb := 9 }] } with
               requests := [{ id := 42, cb := 9 }].eraseP (fun r => r.id == 42) },
       [Ev.resultCb 9 "res" 0 ""])) ∧
    (mg_rpc_handle_response { c0 with requests := [{ id := 42, cb := 9 }] } 43 "res" 0 "" =
      (true, { c0 with requests := [{ id := 42, cb := 9 }] }, [])) := by
  constructor
  · exact (C1_response_round_trip { c0 with requests := [{ id := 42, cb := 9 }] }
      42 "res" 0 "" (by decide)).1 { id := 42, cb := 9 } (by decide)
  · exact (C1_response_round_trip { c0 with requests := [{ id := 42, cb := 9 }] }
      43 "res" 0 "" (by decide)).2 (by decide)

/-! ## Claim C3 — callf registration, nr marker, and the return value -/

/-- Claim C3 exhibit: a `callf` with a NULL callback on an open idle channel
whose transport accepts the frame.  The emitted frame carries the
`"nr":true` marker, no pending request is registered, the frame is handed to
the transport (`chSend … true`) — and yet the call returns `false`, because
the source's final test is `result && ri != NULL` (its else-comment "Could
not send or queue" notwithstanding), so a no-response call can never report
success. -/
theorem C3_nr_call_reports_false :
    ((mg_rpc_vcallf env0 false w0 "Foo" none (some opts0) none).map
        (fun out => (out.1, out.2.1.c.requests, out.2.2))) =
      some (false, [],
        [Ev.chSend 0
          { id := 5, src := "me", dst := "", tag := "", key := "",
            payload := Payload.call true "Foo" none } true]) := by
  rfl

/-! ## Trace helpers: the inbound path never requests a close by itself
(`ch_close` is only invoked from `mg_rpc_ev_handler` and `mg_rpc_disconnect`) -/

theorem no_chClose_getCIByDst (env : Env) (c : mg_rpc) (dst : String) (r : Nat) :
    Ev.chClose r ∉ (mg_rpc_get_channel_info_internal_by_dst env c dst).2.2.2 := by
  unfold mg_rpc_get_channel_info_internal_by_dst
  repeat' split
  all_goals simp
  all_goals repeat' split
  all_goals simp

theorem no_chClose_getCIByDst_eq {env : Env} {c : mg_rpc} {dst : String}
    {rr : Option Nat} {c1 : mg_rpc} {d1 : String} {t : List Ev} (r : Nat)
    (h : mg_rpc_get_channel_info_internal_by_dst env c dst = (rr, c1, d1, t)) :
    Ev.chClose r ∉ t := by
  have hh := no_chClose_getCIByDst env c dst r
  rw [h] at hh
  exact hh

theorem no_chClose_send_frame (w : W) (ciRef : Option Nat) (f : OutFrame)
    (r : Nat) : Ev.chClose r ∉ (mg_rpc_send_frame w ciRef f).2.2 := by
  unfold mg_rpc_send_frame
  repeat' split
  all_goals simp
  all_goals repeat' split
  all_goals simp

theorem no_chClose_send_frame_eq {w : W} {ciRef : Option Nat} {f : OutFrame}
    {ok : Bool} {w2 : W} {t : List Ev} (r : Nat)
    (h : mg_rpc_send_frame w ciRef f = (ok, w2, t)) :
    Ev.chClose r ∉ t := by
  have hh := no_chClose_send_frame w ciRef f r
  rw [h] at hh
  exact hh

theorem no_chClose_dispatch (env : Env) (w : W) (src dst : String) (id : Int)
    (tag key : String) (ci : Option Nat) (enq : Bool) (payload : Payload)
    (r : Nat) :
    Ev.chClose r ∉ (mg_rpc_dispatch_frame env w src dst id tag key ci enq payload).2.2 := by
  unfold mg_rpc_dispatch_frame
  cases ci with
  | some rr =>
    simp only
    generalize hs : mg_rpc_send_frame _ _ _ = sres
    obtain ⟨ok, w2, t1⟩ := sres
    have h1 := no_chClose_send_frame_eq r hs
    repeat' split
    all_goals simp_all
  | none =>
    simp only
    generalize hg : mg_rpc_get_channel_info_internal_by_dst env w.c dst = gres
    obtain ⟨rr, c1, d1, t0⟩ := gres
    have h0 := no_chClose_getCIByDst_eq r hg
    generalize hs : mg_rpc_send_frame _ _ _ = sres
    obtain ⟨ok, w2, t1⟩ := sres
    have h1 := no_chClose_send_frame_eq r hs
    repeat' split
    all_goals simp_all

theorem no_chClose_handle_response (c : mg_rpc) (id : Int) (res : String)
    (ec : Int) (em : String) (r : Nat) :
    Ev.chClose r ∉ (mg_rpc_handle_response c id res ec em).2.2 := by
  unfold mg_rpc_handle_response
  repeat' split
  all_goals simp

theorem no_chClose_handle_response_eq {c : mg_rpc} {id : Int} {res : String}
    {ec : Int} {em : String} {ok : Bool} {c2 : mg_rpc} {t : List Ev} (r : Nat)
    (h : mg_rpc_handle_response c id res ec em = (ok, c2, t)) :
    Ev.chClose r ∉ t := by
  have hh := no_chClose_handle_response c id res ec em r
  rw [h] at hh
  exact hh

theorem no_chClose_send_errorf (env : Env) (w : W) (ri : mg_rpc_request_info)
    (ec : Int) (isj : Bool) (msg : Option String) (r : Nat) :
    Ev.chClose r ∉ (send_errorf env w ri ec isj msg).2.2 := by
  unfold send_errorf
  apply no_chClose_dispatch

theorem no_chClose_send_errorf_eq {env : Env} {w : W} {ri : mg_rpc_request_info}
    {ec : Int} {isj : Bool} {msg : Option String} {ok : Bool} {w1 : W}
    {t : List Ev} (r : Nat) (h : send_errorf env w ri ec isj msg = (ok, w1, t)) :
    Ev.chClose r ∉ t := by
  have hh := no_chClose_send_errorf env w ri ec isj msg r
  rw [h] at hh
  exact hh

theorem no_chClose_handle_request (env : Env) (w : W)
    (ci : mg_rpc_channel_info_internal) (frame : mg_rpc_frame) (r : Nat) :
    Ev.chClose r ∉ (mg_rpc_handle_request env w ci frame).2.2 := by
  unfold mg_rpc_handle_request
  rcases hf : w.c.handlers.find? (fun hi => frame.method == hi.method) with _ | hi <;>
    simp only [hf]
  · generalize he : send_errorf _ _ _ _ _ _ = eres
    obtain ⟨b, w1, t1⟩ := eres
    have h1 := no_chClose_send_errorf_eq r he
    simp [h1]
  · repeat' split
    all_goals simp

theorem no_chClose_handle_frame (env : Env) (w : W)
    (ci : mg_rpc_channel_info_internal) (frame : mg_rpc_frame) (r : Nat) :
    Ev.chClose r ∉ (mg_rpc_handle_frame env w ci frame).2.2 := by
  unfold mg_rpc_handle_frame
  repeat' split
  all_goals (try simp)
  all_goals (try apply no_chClose_handle_request)
  all_goals (rename_i heq; exact no_chClose_handle_response_eq r heq)

/-- `mg_rpc_handle_request` reports success on every path. -/
theorem handle_request_fst (env : Env) (w : W)
    (ci : mg_rpc_channel_info_internal) (frame : mg_rpc_frame) :
    (mg_rpc_handle_request env w ci frame).1 = true := by
  unfold mg_rpc_handle_request
  repeat' split
  all_goals rfl

/-- `mg_rpc_handle_response` fails exactly on a zero id. -/
theorem handle_response_fst (c : mg_rpc) (id : Int) (res : String) (ec : Int)
    (em : String) :
    ((mg_rpc_handle_response c id res ec em).1 = false ↔ id = 0) := by
  unfold mg_rpc_handle_response
  by_cases h : id = 0
  · simp [h]
  · have hb : (id == 0) = false := by simp [h]
    rw [hb]
    simp only [Bool.false_eq_true, if_false]
    split <;> simp [h]

theorem no_chClose_handle_frame_eq {env : Env} {w : W}
    {ci : mg_rpc_channel_info_internal} {frame : mg_rpc_frame} {ok : Bool}
    {w1 : W} {t : List Ev} (r : Nat)
    (h : mg_rpc_handle_frame env w ci frame = (ok, w1, t)) :
    Ev.chClose r ∉ t := by
  have hh := no_chClose_handle_frame env w ci frame r
  rw [h] at hh
  exact hh

/-! ## Claim C2 — routing invariant -/

/-- Claim C2: a frame whose non-empty destination is not a local identity is
dropped with no state change and no callback activity, before any
first-contact binding or dispatch; consequently every frame that reaches
handler dispatch (marked by the `requestStart` event) has an empty
destination or a local one. -/
theorem C2_wrong_dst_dropped (env : Env) (w : W)
    (ci : mg_rpc_channel_info_internal) (frame : mg_rpc_frame) :
    (frame.dst.length ≠ 0 → is_local_id w.c frame.dst = false →
      mg_rpc_handle_frame env w ci frame = (false, w, [])) ∧
    (Ev.requestStart frame.method ∈ (mg_rpc_handle_frame env w ci frame).2.2 →
      frame.dst.length = 0 ∨ is_local_id w.c frame.dst = true) := by
  have key : frame.dst.length ≠ 0 → is_local_id w.c frame.dst = false →
      mg_rpc_handle_frame env w ci frame = (false, w, []) := by
    intro h1 h2
    unfold mg_rpc_handle_frame
    cases hob : ci.is_open
    · simp
    · have hc : (frame.dst.length != 0 && !(is_local_id w.c frame.dst)) = true := by
        simp [h2, h1]
      simp [hc]
  refine ⟨key, ?_⟩
  intro hmem
  by_cases hA : frame.dst.length = 0
  · exact Or.inl hA
  · cases hL : is_local_id w.c frame.dst
    · rw [key hA hL] at hmem
      simp at hmem
    · exact Or.inr rfl

/-- A concrete request frame addressed to a non-local destination. -/
def frC2 : mg_rpc_frame :=
  { version := 0, id := 7, src := "peer", dst := "other", tag := "", method := "M",
    args := "", result := "", error_code := 0, error_msg := "", auth := "" }

/-- The same frame addressed to the local identity. -/
def frC2me : mg_rpc_frame := { frC2 with dst := "me" }

/-- Claim C2 witness: the frame to "other" is dropped unchanged; the
dispatched frame to "me" satisfies the routing invariant. -/
theorem C2_witness :
    mg_rpc_handle_frame env0 w0 ci0 frC2 = (false, w0, []) ∧
    (frC2me.dst.length = 0 ∨ is_local_id w0.c frC2me.dst = true) := by
  constructor
  · exact (C2_wrong_dst_dropped env0 w0 ci0 frC2).1 (by decide) (by decide)
  · exact (C2_wrong_dst_dropped env0 w0 ci0 frC2me).2 (by decide)


/-! ## Claim C10 — request frames never trigger the close-on-failure path -/

/-- Claim C10: handling an inbound request frame (non-empty method) that
passed the open-channel and destination checks always reports success — the
no-handler 404 path and a prehandler rejection included — so a request frame
never triggers the close-on-failure path; `mg_rpc_handle_frame` fails exactly
on a closed channel, a wrong destination, or a response with id 0, and on a
raw inbound frame `mg_rpc_ev_handler` requests a close exactly when the
channel is non-persistent and parsing or handling failed. -/
theorem C10_request_frames_never_fail (env : Env) (w : W)
    (ci : mg_rpc_channel_info_internal) (frame : mg_rpc_frame) (chRef : Nat)
    (s : ScanInput) :
    (mg_rpc_handle_request env w ci frame).1 = true ∧
    ((mg_rpc_handle_frame env w ci frame).1 = false ↔
      (ci.is_open = false ∨
       (frame.dst.length ≠ 0 ∧ is_local_id w.c frame.dst = false) ∨
       (frame.method.length = 0 ∧ frame.id = 0))) ∧
    (w.c.channels.find? (fun e => e.ch.ref == chRef) = some ci →
      (Ev.chClose chRef ∈ (mg_rpc_ev_handler env w chRef (ChannelEvent.FRAME_RECD s)).2 ↔
        (ci.ch.is_persistent = false ∧
          (mg_rpc_parse_frame s = none ∨
           (∃ fr, mg_rpc_parse_frame s = some fr ∧
             (mg_rpc_handle_frame env w ci fr).1 = false))))) := by
  refine ⟨handle_request_fst env w ci frame, ?_, ?_⟩
  · unfold mg_rpc_handle_frame
    cases hob : ci.is_open
    · simp
    · simp only [Bool.not_true, Bool.false_eq_true, if_false]
      cases hd : (frame.dst.length != 0 && !(is_local_id w.c frame.dst))
      · have hd' : ¬(frame.dst.length ≠ 0 ∧ is_local_id w.c frame.dst = false) := by
          rintro ⟨h1, h2⟩
          rw [h2] at hd
          simp [h1] at hd
        simp only [Bool.false_eq_true, if_false]
        by_cases hm : frame.method.length > 0
        · have hm0 : frame.method.length ≠ 0 := by omega
          simp [hm, handle_request_fst, hd', hm0]
        · have hm0 : frame.method.length = 0 := by omega
          simp only [hm, if_false]
          constructor
          · intro hfalse
            exact Or.inr (Or.inr ⟨hm0,
              (handle_response_fst _ frame.id frame.result frame.error_code
                frame.error_msg).mp hfalse⟩)
          · rintro (h | h | ⟨_, hid⟩)
            · simp at h
            · exact absurd h hd'
            · exact (handle_response_fst _ frame.id frame.result frame.error_code
                frame.error_msg).mpr hid
      · simp only [if_true]
        have h1 : frame.dst.length ≠ 0 ∧ is_local_id w.c frame.dst = false := by
          have := hd
          simp only [Bool.and_eq_true, bne_iff_ne, Bool.not_eq_true'] at this
          exact this
        constructor
        · intro _
          exact Or.inr (Or.inl h1)
        · intro _
          trivial
  · intro hfind
    unfold mg_rpc_ev_handler
    simp only [hfind]
    cases hp : mg_rpc_parse_frame s
    · simp only [hp]
      cases hper : ci.ch.is_persistent <;> simp
    · rename_i fr
      simp only [hp]
      have hnc := no_chClose_handle_frame env w ci fr chRef
      cases hok : (mg_rpc_handle_frame env w ci fr).1
      · simp only [hok, Bool.not_false, if_true]
        cases hper : ci.ch.is_persistent
        · simp [hnc, hok]
        · simp [hnc, hok]
      · simp only [hok, Bool.not_true, Bool.false_eq_true, if_false]
        simp [hnc, hok]

/-- A scan input that recognises only the method field. -/
def sC10 : ScanInput :=
  { v := none, id := none, src := none, dst := none, tag := none,
    method := some "M", args := none, auth := none, result := none,
    error_code := none, error_msg := none }

/-- Claim C10 witness: the three parts at a concrete open persistent channel,
request frame and raw frame. -/
theorem C10_witness :
    (mg_rpc_handle_request env0 w0 ci0 frC2me).1 = true ∧
    ((mg_rpc_handle_frame env0 w0 ci0 frC2me).1 = false ↔
      (ci0.is_open = false ∨
       (frC2me.dst.length ≠ 0 ∧ is_local_id w0.c frC2me.dst = false) ∨
       (frC2me.method.length = 0 ∧ frC2me.id = 0))) ∧
    (Ev.chClose 0 ∈ (mg_rpc_ev_handler env0 w0 0 (ChannelEvent.FRAME_RECD sC10)).2 ↔
      (ci0.ch.is_persistent = false ∧
        (mg_rpc_parse_frame sC10 = none ∨
         (∃ fr, mg_rpc_parse_frame sC10 = some fr ∧
           (mg_rpc_handle_frame env0 w0 ci0 fr).1 = false)))) := by
  have h := C10_request_frames_never_fail env0 w0 ci0 frC2me 0 sC10
  exact ⟨h.1, h.2.1, h.2.2 (by decide)⟩

/-! ## The one-in-flight flag invariant (is_busy implies is_open) -/

/-- Every busy channel entry is open. -/
def ChanInv (l : List mg_rpc_channel_info_internal) : Prop :=
  ∀ e ∈ l, e.is_busy = true → e.is_open = true

theorem chanInv_updFirst_keep (p : mg_rpc_channel_info_internal → Bool)
    (f : mg_rpc_channel_info_internal → mg_rpc_channel_info_internal)
    (l : List mg_rpc_channel_info_internal) :
    ChanInv l →
    (∀ e, e ∈ l → (e.is_busy = true → e.is_open = true) →
      ((f e).is_busy = true → (f e).is_open = true)) →
    ChanInv (updFirst p f l) := by
  induction l with
  | nil => intro _ _ e he; simp [updFirst] at he
  | cons x xs ih =>
    intro h hf e he
    simp only [updFirst] at he
    by_cases hp : p x = true
    · rw [if_pos hp] at he
      rcases List.mem_cons.mp he with rfl | hmem
      · exact hf x (List.mem_cons_self x xs) (h x (List.mem_cons_self x xs))
      · exact h e (List.mem_cons_of_mem x hmem)
    · rw [if_neg hp] at he
      rcases List.mem_cons.mp he with hxe | hmem
      · rw [hxe]
        exact h x (List.mem_cons_self x xs)
      · exact ih (fun e' he' => h e' (List.mem_cons_of_mem x he'))
          (fun e' he' hi => hf e' (List.mem_cons_of_mem x he') hi) e hmem

theorem chanInv_updFirst_busy (r : Nat) (l : List mg_rpc_channel_info_internal) :
    ChanInv l →
    (∀ a, l.find? (fun e => e.ref == r) = some a → a.is_open = true) →
    ChanInv (updFirst (fun e => e.ref == r)
      (fun e => { e with is_busy := true }) l) := by
  induction l with
  | nil => intro _ _ e he; simp [updFirst] at he
  | cons x xs ih =>
    intro h hfind e he
    simp only [updFirst] at he
    by_cases hp : (x.ref == r) = true
    · rw [if_pos hp] at he
      rcases List.mem_cons.mp he with rfl | hmem
      · intro _
        exact hfind x (List.find?_cons_of_pos xs hp)
      · exact h e (List.mem_cons_of_mem x hmem)
    · rw [if_neg hp] at he
      rcases List.mem_cons.mp he with hxe | hmem
      · rw [hxe]
        exact h x (List.mem_cons_self x xs)
      · refine ih (fun e' he' => h e' (List.mem_cons_of_mem x he')) ?_ e hmem
        intro a ha
        apply hfind
        rw [List.find?_cons_of_neg xs hp]
        exact ha

theorem chanInv_add_channel_internal (c : mg_rpc) (dst : String) (ch : Chan) :
    ChanInv c.channels → ChanInv (mg_rpc_add_channel_internal c dst ch).1.channels := by
  intro h e he
  simp only [mg_rpc_add_channel_internal] at he
  rcases List.mem_cons.mp he with rfl | hmem
  · intro hb
    simp at hb
  · exact h e hmem

theorem chanInv_add_channel_internal_eq {c : mg_rpc} {dst : String} {ch : Chan}
    {c1 : mg_rpc} {r : Nat}
    (heq : mg_rpc_add_channel_internal c dst ch = (c1, r)) :
    ChanInv c.channels → ChanInv c1.channels := by
  intro h
  have hh := chanInv_add_channel_internal c dst ch h
  rw [heq] at hh
  exact hh

theorem chanInv_getCIByDst (env : Env) (c : mg_rpc) (dst : String) :
    ChanInv c.channels →
    ChanInv (mg_rpc_get_channel_info_internal_by_dst env c dst).2.1.channels := by
  intro h
  unfold mg_rpc_get_channel_info_internal_by_dst
  cases hu : (if dst.length > 0 then env.parse_uri dst else none) <;>
    simp only [hu] <;>
    (repeat' split) <;>
    first
      | exact h
      | exact chanInv_add_channel_internal _ _ _ h

theorem chanInv_getCIByDst_eq {env : Env} {c : mg_rpc} {dst : String}
    {r : Option Nat} {c1 : mg_rpc} {d1 : String} {t : List Ev}
    (heq : mg_rpc_get_channel_info_internal_by_dst env c dst = (r, c1, d1, t)) :
    ChanInv c.channels → ChanInv c1.channels := by
  intro h
  have hh := chanInv_getCIByDst env c dst h
  rw [heq] at hh
  exact hh

theorem chanInv_send_frame (w : W) (ciRef : Option Nat) (f : OutFrame) :
    ChanInv w.c.channels → ChanInv (mg_rpc_send_frame w ciRef f).2.1.c.channels := by
  intro h
  unfold mg_rpc_send_frame
  cases hfind : ciRef.bind (fun r => w.c.channels.find? (fun e => e.ref == r)) with
  | none => simp only [hfind]; exact h
  | some ci =>
    simp only [hfind]
    by_cases hguard : (!ci.is_open || ci.is_busy) = true
    · simp only [hguard, if_true]
      exact h
    · simp only [hguard, Bool.false_eq_true, if_false]
      have hopen : ci.is_open = true := by
        cases hoo : ci.is_open
        · exfalso
          apply hguard
          simp [hoo]
        · rfl
      cases horc : w.oracle.headD false
      · simp only [horc, Bool.false_eq_true, if_false]
        exact h
      · simp only [horc, if_true]
        obtain ⟨rr, hrr⟩ : ∃ rr, ciRef = some rr := by
          cases ciRef
          · simp at hfind
          · exact ⟨_, rfl⟩
        subst hrr
        have hfind' : w.c.channels.find? (fun e => e.ref == rr) = some ci := by
          simpa using hfind
        have hcir : ci.ref = rr := by
          have := List.find?_some hfind'
          simpa using this
        have hpred : (fun (e : mg_rpc_channel_info_internal) => e.ref == ci.ref)
            = (fun e => e.ref == rr) := by
          funext e
          rw [hcir]
        rw [hpred]
        apply chanInv_updFirst_busy rr _ h
        intro a ha
        rw [hfind'] at ha
        cases ha
        exact hopen

theorem chanInv_send_frame_eq {w : W} {ciRef : Option Nat} {f : OutFrame}
    {ok : Bool} {w2 : W} {t : List Ev}
    (heq : mg_rpc_send_frame w ciRef f = (ok, w2, t)) :
    ChanInv w.c.channels → ChanInv w2.c.channels := by
  intro h
  have hh := chanInv_send_frame w ciRef f h
  rw [heq] at hh
  exact hh

theorem enqueue_frame_channels (c : mg_rpc) (ci : Option Nat) (dst : String)
    (f : OutFrame) : (mg_rpc_enqueue_frame c ci dst f).2.channels = c.channels := by
  unfold mg_rpc_enqueue_frame
  split <;> rfl

theorem remove_queue_entry_channels (c : mg_rpc) (qe : mg_rpc_queue_entry) :
    (mg_rpc_remove_queue_entry c qe).channels = c.channels := rfl

theorem chanInv_dispatch (env : Env) (w : W) (src dst : String) (id : Int)
    (tag key : String) (ci : Option Nat) (enq : Bool) (payload : Payload) :
    ChanInv w.c.channels →
    ChanInv (mg_rpc_dispatch_frame env w src dst id tag key ci enq payload).2.1.c.channels := by
  intro h
  unfold mg_rpc_dispatch_frame
  cases ci with
  | some r =>
    simp only
    generalize hs : mg_rpc_send_frame _ _ _ = sres
    obtain ⟨ok, w2, t1⟩ := sres
    have h2 := chanInv_send_frame_eq hs h
    cases ok
    · by_cases he : enq = true
      · simp only [he, Bool.false_eq_true, if_false, if_true]
        generalize hq : mg_rpc_enqueue_frame _ _ _ _ = qres
        obtain ⟨qok, c3⟩ := qres
        have h3 : c3.channels = w2.c.channels := by
          have := enqueue_frame_channels w2.c (some r) dst
            { id := id, src := (if src.length > 0 then src else w.c.local_ids.headD ""),
              dst := dst, tag := tag, key := key, payload := payload }
          rw [hq] at this
          exact this
        intro e hme
        rw [h3] at hme
        exact h2 e hme
      · simp only [he, Bool.false_eq_true, if_false]
        exact h2
    · simp only [if_true]
      exact h2
  | none =>
    simp only
    generalize hg : mg_rpc_get_channel_info_internal_by_dst env w.c dst = gres
    obtain ⟨rr, c1, d1, t0⟩ := gres
    have h1 := chanInv_getCIByDst_eq hg h
    generalize hs : mg_rpc_send_frame _ _ _ = sres
    obtain ⟨ok, w2, t1⟩ := sres
    have h2 := chanInv_send_frame_eq hs h1
    cases ok
    · by_cases he : enq = true
      · simp only [he, Bool.false_eq_true, if_false, if_true]
        generalize hq : mg_rpc_enqueue_frame _ _ _ _ = qres
        obtain ⟨qok, c3⟩ := qres
        have h3 : c3.channels = w2.c.channels := by
          have := enqueue_frame_channels w2.c rr dst
            { id := id, src := (if src.length > 0 then src else c1.local_ids.headD ""),
              dst := d1, tag := tag, key := key, payload := payload }
          rw [hq] at this
          exact this
        intro e hme
        rw [h3] at hme
        exact h2 e hme
      · simp only [he, Bool.false_eq_true, if_false]
        exact h2
    · simp only [if_true]
      exact h2

theorem chanInv_dispatch_eq {env : Env} {w : W} {src dst : String} {id : Int}
    {tag key : String} {ci : Option Nat} {enq : Bool} {payload : Payload}
    {ok : Bool} {w2 : W} {t : List Ev}
    (heq : mg_rpc_dispatch_frame env w src dst id tag key ci enq payload = (ok, w2, t)) :
    ChanInv w.c.channels → ChanInv w2.c.channels := by
  intro h
  have hh := chanInv_dispatch env w src dst id tag key ci enq payload h
  rw [heq] at hh
  exact hh

theorem handle_response_channels (c : mg_rpc) (id : Int) (res : String)
    (ec : Int) (em : String) :
    (mg_rpc_handle_response c id res ec em).2.1.channels = c.channels := by
  unfold mg_rpc_handle_response
  repeat' split
  all_goals rfl

theorem chanInv_send_errorf (env : Env) (w : W) (ri : mg_rpc_request_info)
    (ec : Int) (isj : Bool) (msg : Option String) :
    ChanInv w.c.channels → ChanInv (send_errorf env w ri ec isj msg).2.1.c.channels := by
  intro h
  unfold send_errorf
  exact chanInv_dispatch _ _ _ _ _ _ _ _ _ _ h

theorem chanInv_send_responsef (env : Env) (w : W) (ri : mg_rpc_request_info)
    (body : Option String) :
    ChanInv w.c.channels →
    ChanInv (mg_rpc_send_responsef env w ri body).2.1.c.channels := by
  intro h
  unfold mg_rpc_send_responsef
  exact chanInv_dispatch _ _ _ _ _ _ _ _ _ _ h

theorem chanInv_send_errorf_eq {env : Env} {w : W} {ri : mg_rpc_request_info}
    {ec : Int} {isj : Bool} {msg : Option String} {ok : Bool} {w1 : W}
    {t : List Ev} (heq : send_errorf env w ri ec isj msg = (ok, w1, t)) :
    ChanInv w.c.channels → ChanInv w1.c.channels := by
  intro h
  have hh := chanInv_send_errorf env w ri ec isj msg h
  rw [heq] at hh
  exact hh

theorem chanInv_handle_request (env : Env) (w : W)
    (ci : mg_rpc_channel_info_internal) (frame : mg_rpc_frame) :
    ChanInv w.c.channels →
    ChanInv (mg_rpc_handle_request env w ci frame).2.1.c.channels := by
  intro h
  unfold mg_rpc_handle_request
  cases hf : w.c.handlers.find? (fun hi => frame.method == hi.method) with
  | none =>
    simp only [hf]
    generalize he : send_errorf _ _ _ _ _ _ = eres
    obtain ⟨b, w1, t1⟩ := eres
    exact chanInv_send_errorf_eq he h
  | some hi =>
    simp only [hf]
    exact h

theorem chanInv_handle_frame (env : Env) (w : W)
    (ci : mg_rpc_channel_info_internal) (frame : mg_rpc_frame) :
    ChanInv w.c.channels →
    ChanInv (mg_rpc_handle_frame env w ci frame).2.1.c.channels := by
  intro h
  unfold mg_rpc_handle_frame
  by_cases ho : (!ci.is_open) = true
  · simp only [ho, if_true]
    exact h
  · simp only [ho, Bool.false_eq_true, if_false]
    by_cases hd : (frame.dst.length != 0 && !(is_local_id w.c frame.dst)) = true
    · simp only [hd, if_true]
      exact h
    · simp only [hd, Bool.false_eq_true, if_false]
      have hbind : ∀ (w1 : W), ChanInv w1.c.channels →
          ChanInv ((if frame.method.length > 0 then
              mg_rpc_handle_request env w1 ci frame
            else
              (let r := mg_rpc_handle_response w1.c frame.id frame.result
                frame.error_code frame.error_msg
               (r.1, { w1 with c := r.2.1 }, r.2.2))).2.1.c.channels) := by
        intro w1 h1
        by_cases hm : frame.method.length > 0
        · simp only [hm, if_true]
          exact chanInv_handle_request env w1 ci frame h1
        · simp only [hm, if_false]
          intro e hme
          simp only [handle_response_channels] at hme
          exact h1 e hme
      by_cases hz : (ci.dst.length == 0) = true
      · simp only [hz, if_true]
        by_cases hm : frame.method.length > 0
        · simp only [hm, if_true]
          apply chanInv_handle_request
          apply chanInv_updFirst_keep _ _ _ h
          intro e _ hi hb
          exact hi hb
        · simp only [hm, if_false]
          intro e hme
          simp only [handle_response_channels] at hme
          apply chanInv_updFirst_keep _ _ _ h ?_ e hme
          intro e' _ hi hb
          exact hi hb
      · simp only [hz, Bool.false_eq_true, if_false]
        by_cases hm : frame.method.length > 0
        · simp only [hm, if_true]
          exact chanInv_handle_request env w ci frame h
        · simp only [hm, if_false]
          intro e hme
          simp only [handle_response_channels] at hme
          exact h e hme

theorem chanInv_handle_frame_eq {env : Env} {w : W}
    {ci : mg_rpc_channel_info_internal} {frame : mg_rpc_frame}
    {ok : Bool} {w1 : W} {t : List Ev}
    (heq : mg_rpc_handle_frame env w ci frame = (ok, w1, t)) :
    ChanInv w.c.channels → ChanInv w1.c.channels := by
  intro h
  have hh := chanInv_handle_frame env w ci frame h
  rw [heq] at hh
  exact hh

theorem chanInv_process_queue_go (env : Env) (rest : List mg_rpc_queue_entry) :
    ∀ (w : W), ChanInv w.c.channels →
      ChanInv (mg_rpc_process_queue_go env w rest).1.c.channels := by
  induction rest with
  | nil => intro w h; exact h
  | cons qe tqe ih =>
    intro w h
    unfold mg_rpc_process_queue_go
    cases hci : qe.ci with
    | some r =>
      simp only [hci]
      generalize hs : mg_rpc_send_frame _ _ _ = sres
      obtain ⟨ok, w2, t2⟩ := sres
      have h2 := chanInv_send_frame_eq hs h
      cases ok
      · simp only [Bool.false_eq_true, if_false]
        exact ih _ h2
      · simp only [if_true]
        exact ih _ h2
    | none =>
      simp only [hci]
      generalize hg : mg_rpc_get_channel_info_internal_by_dst env w.c qe.dst = gres
      obtain ⟨rr, c1, d1, t0⟩ := gres
      have h1 := chanInv_getCIByDst_eq hg h
      generalize hs : mg_rpc_send_frame _ _ _ = sres
      obtain ⟨ok, w2, t2⟩ := sres
      have h2 := chanInv_send_frame_eq hs h1
      cases ok
      · simp only [Bool.false_eq_true, if_false]
        exact ih _ h2
      · simp only [if_true]
        exact ih _ h2

theorem chanInv_process_queue (env : Env) (w : W) :
    ChanInv w.c.channels → ChanInv (mg_rpc_process_queue env w).1.c.channels := by
  intro h
  exact chanInv_process_queue_go env w.c.queue w h

theorem chanInv_broadcast_go (env : Env) (src dst : String) (id : Int)
    (tag key : String) (payload : Payload)
    (l : List mg_rpc_channel_info_internal) :
    ∀ (w : W), ChanInv w.c.channels →
      ChanInv (mg_rpc_broadcast_go env w src dst id tag key payload l).2.1.c.channels := by
  induction l with
  | nil => intro w h; exact h
  | cons ci rest ih =>
    intro w h
    unfold mg_rpc_broadcast_go
    cases hbe : ci.ch.is_broadcast_enabled with
    | none => simp only [hbe]; exact ih w h
    | some b =>
      simp only [hbe]
      cases b
      · simp only [Bool.not_false, if_true]
        exact ih w h
      · simp only [Bool.not_true, Bool.false_eq_true, if_false]
        generalize hd : mg_rpc_dispatch_frame env w src dst id tag key
          (some ci.ref) false payload = dres
        obtain ⟨r1, w1, t1⟩ := dres
        have h1 := chanInv_dispatch_eq hd h
        generalize hb : mg_rpc_broadcast_go env w1 src dst id tag key payload rest = bres
        obtain ⟨r2, w2, t2⟩ := bres
        have h2 : ChanInv w2.c.channels := by
          have hh := ih w1 h1
          rw [hb] at hh
          exact hh
        exact h2

theorem purge_go_channels (ciRef : Nat) (l : List mg_rpc_queue_entry) :
    ∀ (c : mg_rpc), (mg_rpc_closed_purge_go ciRef c l).channels = c.channels := by
  induction l with
  | nil => intro c; rfl
  | cons qe tqe ih =>
    intro c
    unfold mg_rpc_closed_purge_go
    by_cases hq : (qe.ci == some ciRef) = true
    · simp only [hq, if_true]
      rw [ih]
      rfl
    · simp only [hq, Bool.false_eq_true, if_false]
      exact ih c

theorem chanInv_ev_handler (env : Env) (w : W) (chRef : Nat)
    (ev : ChannelEvent) :
    ChanInv w.c.channels → ChanInv (mg_rpc_ev_handler env w chRef ev).1.c.channels := by
  intro h
  cases ev with
  | OPEN =>
    unfold mg_rpc_ev_handler
    cases hfind : w.c.channels.find? (fun ci => ci.ch.ref == chRef) with
    | none => simp only [hfind]; exact h
    | some ci =>
      simp only [hfind]
      have h1 : ChanInv (updFirst (fun e => e.ch.ref == chRef)
          (fun e => { e with is_open := true, is_busy := false }) w.c.channels) := by
        apply chanInv_updFirst_keep _ _ _ h
        intro e _ _ hb
        simp at hb
      refine chanInv_process_queue env _ ?_
      exact h1
  | FRAME_RECD s =>
    unfold mg_rpc_ev_handler
    cases hfind : w.c.channels.find? (fun ci => ci.ch.ref == chRef) with
    | none => simp only [hfind]; exact h
    | some ci =>
      simp only [hfind]
      cases hp : mg_rpc_parse_frame s with
      | none => simp only [hp]; exact h
      | some frame =>
        simp only [hp]
        have h1 := chanInv_handle_frame env w ci frame h
        cases hok : (mg_rpc_handle_frame env w ci frame).1 <;>
          simp only [hok, Bool.not_true, Bool.not_false, Bool.false_eq_true,
            if_true, if_false] <;>
          exact h1
  | FRAME_RECD_PARSED frame =>
    unfold mg_rpc_ev_handler
    cases hfind : w.c.channels.find? (fun ci => ci.ch.ref == chRef) with
    | none => simp only [hfind]; exact h
    | some ci =>
      simp only [hfind]
      have h1 := chanInv_handle_frame env w ci frame h
      cases hok : (mg_rpc_handle_frame env w ci frame).1 <;>
        simp only [hok, Bool.not_true, Bool.not_false, Bool.false_eq_true,
          if_true, if_false] <;>
        exact h1
  | FRAME_SENT success =>
    unfold mg_rpc_ev_handler
    cases hfind : w.c.channels.find? (fun ci => ci.ch.ref == chRef) with
    | none => simp only [hfind]; exact h
    | some ci =>
      simp only [hfind]
      have h1 : ChanInv (updFirst (fun e => e.ch.ref == chRef)
          (fun e => { e with is_busy := false }) w.c.channels) := by
        apply chanInv_updFirst_keep _ _ _ h
        intro e _ _ hb
        simp at hb
      refine chanInv_process_queue env _ ?_
      exact h1
  | CLOSED =>
    unfold mg_rpc_ev_handler
    cases hfind : w.c.channels.find? (fun ci => ci.ch.ref == chRef) with
    | none => simp only [hfind]; exact h
    | some ci =>
      simp only [hfind]
      have h1 : ChanInv (updFirst (fun e => e.ch.ref == chRef)
          (fun e => { e with is_open := false, is_busy := false }) w.c.channels) := by
        apply chanInv_updFirst_keep _ _ _ h
        intro e _ _ hb
        simp at hb
      by_cases hrm : (!ci.ch.is_persistent) = true
      · rw [if_pos hrm]
        intro e hme
        simp only [purge_go_channels] at hme
        have hme2 := (List.eraseP_sublist _).subset hme
        exact h1 e hme2
      · rw [if_neg hrm]
        exact h1

theorem chanInv_vcallf (env : Env) (c_null : Bool) (w : W) (method : String)
    (cb : Option Nat) (o : mg_rpc_call_opts) (args_jsonf : Option String) :
    ChanInv w.c.channels →
    ∀ r w1 t, mg_rpc_vcallf env c_null w method cb (some o) args_jsonf = some (r, w1, t) →
      ChanInv w1.c.channels := by
  intro h r w1 t heq
  simp only [mg_rpc_vcallf] at heq
  by_cases hnull : c_null = true
  · rw [if_pos hnull] at heq
    cases heq
    exact h
  · rw [if_neg hnull] at heq
    by_cases hbc : (!o.broadcast) = true
    · rw [if_pos hbc] at heq
      generalize hd : mg_rpc_dispatch_frame env (mg_rpc_get_id w).2
          (if (o.src.length == 0) = true then (mg_rpc_get_id w).2.c.cfg.id else o.src)
          (if o.dst.length > 0 then o.dst else "") (mg_rpc_get_id w).1
          (if o.tag.length > 0 then o.tag else "") (if o.key.length > 0 then o.key else "")
          none (!o.no_queue) (Payload.call cb.isNone method args_jsonf) = dres at heq
      obtain ⟨rr, w2, t2⟩ := dres
      have h2 : ChanInv w2.c.channels := chanInv_dispatch_eq hd h
      repeat' split at heq
      all_goals cases heq
      all_goals exact h2
    · rw [if_neg hbc] at heq
      generalize hb : mg_rpc_broadcast_go env (mg_rpc_get_id w).2
          (if (o.src.length == 0) = true then (mg_rpc_get_id w).2.c.cfg.id else o.src)
          (if o.dst.length > 0 then o.dst else "") (mg_rpc_get_id w).1
          (if o.tag.length > 0 then o.tag else "") (if o.key.length > 0 then o.key else "")
          (Payload.call cb.isNone method args_jsonf)
          (mg_rpc_get_id w).2.c.channels = bres at heq
      obtain ⟨rr, w2, t2⟩ := bres
      have h2 : ChanInv w2.c.channels := by
        have hh := chanInv_broadcast_go env
          (if (o.src.length == 0) = true then (mg_rpc_get_id w).2.c.cfg.id else o.src)
          (if o.dst.length > 0 then o.dst else "") (mg_rpc_get_id w).1
          (if o.tag.length > 0 then o.tag else "") (if o.key.length > 0 then o.key else "")
          (Payload.call cb.isNone method args_jsonf)
          (mg_rpc_get_id w).2.c.channels (mg_rpc_get_id w).2 h
        rw [hb] at hh
        exact hh
      repeat' split at heq
      all_goals cases heq
      all_goals exact h2

theorem chanInv_is_connected (env : Env) (c : mg_rpc) :
    ChanInv c.channels → ChanInv (mg_rpc_is_connected env c).2.channels := by
  intro h
  unfold mg_rpc_is_connected
  generalize hg : mg_rpc_get_channel_info_internal_by_dst env c env.dstDefault = gres
  obtain ⟨rr, c1, d1, t0⟩ := gres
  exact chanInv_getCIByDst_eq hg h

theorem chanInv_can_send (env : Env) (c : mg_rpc) :
    ChanInv c.channels → ChanInv (mg_rpc_can_send env c).2.channels := by
  intro h
  unfold mg_rpc_can_send
  generalize hg : mg_rpc_get_channel_info_internal_by_dst env c env.dstDefault = gres
  obtain ⟨rr, c1, d1, t0⟩ := gres
  exact chanInv_getCIByDst_eq hg h

/-! ## Claim C4 — is_busy implies is_open -/

/-- Claim C4: for every channel entry, `is_busy = true` implies
`is_open = true`: the freshly created multiplexer satisfies it, and every
multiplexer operation and channel event (OPEN, FRAME_RECD,
FRAME_RECD_PARSED, FRAME_SENT, CLOSED, direct sends and queue drains
included) preserves it — the busy flag is only ever set by a direct send
that first checked the entry is open and not busy. -/
theorem C4_busy_implies_open (env : Env) (w : W) (op : Op) (cfg : mg_rpc_cfg) :
    ChanInv (mg_rpc_create cfg).channels ∧
    (ChanInv w.c.channels → ChanInv (step env w op).c.channels) := by
  constructor
  · intro e he
    simp [mg_rpc_create, mg_rpc_add_local_id] at he
    split at he <;> simp at he
  · intro h
    cases op with
    | chEv chRef ev => exact chanInv_ev_handler env w chRef ev h
    | callf m cb o fmt =>
      unfold step
      cases hv : mg_rpc_vcallf env false w m cb (some o) fmt with
      | none => simp only [hv]; exact h
      | some out =>
        obtain ⟨r, w1, t⟩ := out
        simp only [hv]
        exact chanInv_vcallf env false w m cb o fmt h r w1 t hv
    | sendResponse ri body => exact chanInv_send_responsef env w ri body h
    | sendError ri code msg => exact chanInv_send_errorf env w ri code false msg h
    | sendErrorJson ri code msg => exact chanInv_send_errorf env w ri code true msg h
    | addChannel dst ch => exact chanInv_add_channel_internal w.c dst ch h
    | addHandler m fmt cb => exact h
    | addObserver cb => exact h
    | removeObserver cb => exact h
    | addLocalId id =>
      have hch : (mg_rpc_add_local_id w.c id).channels = w.c.channels := by
        unfold mg_rpc_add_local_id
        split <;> rfl
      show ChanInv (mg_rpc_add_local_id w.c id).channels
      rw [hch]
      exact h
    | setPrehandler cb => exact h
    | connect => exact h
    | disconnect => exact h
    | isConnected => exact chanInv_is_connected env w.c h
    | canSend => exact chanInv_can_send env w.c h

/-- Claim C4 witness: the invariant holds for the concrete world `w0` and is
preserved by a concrete OPEN event. -/
theorem C4_witness :
    ChanInv (mg_rpc_create cfg0).channels ∧
    (ChanInv w0.c.channels →
      ChanInv (step env0 w0 (Op.chEv 0 ChannelEvent.OPEN)).c.channels) :=
  C4_busy_implies_open env0 w0 (Op.chEv 0 ChannelEvent.OPEN) cfg0

/-! ## Keyed-list helpers for node removal (pointer-exact `eraseP`) -/

theorem eraseP_key_append {α : Type} (key : α → Nat) (pre rest : List α) (a : α)
    (hnd : ((pre ++ a :: rest).map key).Nodup) :
    (pre ++ a :: rest).eraseP (fun e => key e == key a) = pre ++ rest := by
  induction pre with
  | nil =>
    simp [List.eraseP_cons]
  | cons x xs ih =>
    have hnd' : ((xs ++ a :: rest).map key).Nodup := by
      simp only [List.cons_append, List.map_cons, List.nodup_cons] at hnd
      exact hnd.2
    have hxa : (key x == key a) = false := by
      simp only [List.cons_append, List.map_cons, List.nodup_cons] at hnd
      have hmem : key a ∈ (xs ++ a :: rest).map key := by
        simp
      have hne : key x ≠ key a := by
        intro hcon
        rw [hcon] at hnd
        exact hnd.1 hmem
      simpa using hne
    simp only [List.cons_append, List.eraseP_cons, hxa, cond_false]
    rw [ih hnd']

theorem eraseP_key_not_mem {α : Type} (key : α → Nat) (k : Nat) (l : List α)
    (hnd : (l.map key).Nodup) :
    ∀ e ∈ l.eraseP (fun e => key e == k), key e ≠ k := by
  induction l with
  | nil => intro e he; simp at he
  | cons x xs ih =>
    intro e he
    simp only [List.map_cons, List.nodup_cons] at hnd
    by_cases hx : (key x == k) = true
    · rw [List.eraseP_cons, hx, cond_true] at he
      intro hcon
      apply hnd.1
      have : key x = k := by simpa using hx
      rw [this, ← hcon]
      exact List.mem_map_of_mem key he
    · have hx0 : (key x == k) = false := by simpa using hx
      rw [List.eraseP_cons, hx0, cond_false] at he
      rcases List.mem_cons.mp he with rfl | hmem
      · simpa using hx
      · exact ih hnd.2 e hmem

theorem updFirst_map_key {α : Type} (key : α → Nat) (p : α → Bool) (f : α → α)
    (l : List α) (hf : ∀ e, key (f e) = key e) :
    (updFirst p f l).map key = l.map key := by
  induction l with
  | nil => rfl
  | cons x xs ih =>
    simp only [updFirst]
    by_cases hp : p x = true
    · simp [hp, hf]
    · simp [hp, ih]

theorem updFirst_mem_of_find {α : Type} {p : α → Bool} {f : α → α}
    {l : List α} {a : α} (h : l.find? p = some a) :
    f a ∈ updFirst p f l := by
  induction l with
  | nil => simp at h
  | cons x xs ih =>
    by_cases hp : p x = true
    · rw [List.find?_cons_of_pos xs hp] at h
      cases h
      simp [updFirst, hp]
    · rw [List.find?_cons_of_neg xs hp] at h
      simp only [updFirst]
      rw [if_neg hp]
      exact List.mem_cons_of_mem x (ih h)

theorem updFirst_queue (p : mg_rpc_channel_info_internal → Bool)
    (f : mg_rpc_channel_info_internal → mg_rpc_channel_info_internal)
    (c : mg_rpc) :
    ({ c with channels := updFirst p f c.channels } : mg_rpc).queue = c.queue := rfl

/-! ## Queue-field congruence: destination resolution and sends neither read
nor write the stored queue or its length -/

/-- Override the queue and its length counter. -/
def setQ (c : mg_rpc) (q : List mg_rpc_queue_entry) (n : Int) : mg_rpc :=
  { c with queue := q, queue_len := n }

/-- Override the queue and its length counter inside a world. -/
def setQW (w : W) (q : List mg_rpc_queue_entry) (n : Int) : W :=
  { w with c := setQ w.c q n }

theorem getCIByDst_setQ (env : Env) (c : mg_rpc) (dst : String)
    (q : List mg_rpc_queue_entry) (n : Int) :
    mg_rpc_get_channel_info_internal_by_dst env (setQ c q n) dst =
      ((mg_rpc_get_channel_info_internal_by_dst env c dst).1,
       setQ (mg_rpc_get_channel_info_internal_by_dst env c dst).2.1 q n,
       (mg_rpc_get_channel_info_internal_by_dst env c dst).2.2.1,
       (mg_rpc_get_channel_info_internal_by_dst env c dst).2.2.2) := by
  unfold mg_rpc_get_channel_info_internal_by_dst
  simp only [setQ]
  cases hu : (if dst.length > 0 then env.parse_uri dst else none) <;>
    (try simp only [hu]) <;>
    cases hs : chanScan env dst none c.channels
  all_goals repeat' split
  all_goals rfl

theorem send_frame_setQW (w : W) (ciRef : Option Nat) (f : OutFrame)
    (q : List mg_rpc_queue_entry) (n : Int) :
    mg_rpc_send_frame (setQW w q n) ciRef f =
      ((mg_rpc_send_frame w ciRef f).1,
       setQW (mg_rpc_send_frame w ciRef f).2.1 q n,
       (mg_rpc_send_frame w ciRef f).2.2) := by
  unfold mg_rpc_send_frame
  simp only [setQW, setQ]
  cases hb : ciRef.bind (fun r => w.c.channels.find? (fun e => e.ref == r))
  all_goals simp only [hb]
  all_goals repeat' split
  all_goals rfl

theorem getCIByDst_state (env : Env) (c : mg_rpc) (dst : String) :
    (mg_rpc_get_channel_info_internal_by_dst env c dst).2.1.queue = c.queue ∧
    (mg_rpc_get_channel_info_internal_by_dst env c dst).2.1.queue_len = c.queue_len ∧
    (mg_rpc_get_channel_info_internal_by_dst env c dst).2.1.cfg = c.cfg ∧
    c.next_ref ≤ (mg_rpc_get_channel_info_internal_by_dst env c dst).2.1.next_ref := by
  unfold mg_rpc_get_channel_info_internal_by_dst
  cases hu : (if dst.length > 0 then env.parse_uri dst else none) <;>
    (try simp only [hu]) <;>
    cases hs : chanScan env dst none c.channels
  all_goals repeat' split
  all_goals refine ⟨?_, ?_, ?_, ?_⟩
  all_goals first | rfl | trivial | exact Nat.le_refl _ | exact Nat.le_succ _

theorem send_frame_state (w : W) (ciRef : Option Nat) (f : OutFrame) :
    (mg_rpc_send_frame w ciRef f).2.1.c.queue = w.c.queue ∧
    (mg_rpc_send_frame w ciRef f).2.1.c.queue_len = w.c.queue_len ∧
    (mg_rpc_send_frame w ciRef f).2.1.c.cfg = w.c.cfg ∧
    (mg_rpc_send_frame w ciRef f).2.1.c.next_ref = w.c.next_ref := by
  unfold mg_rpc_send_frame
  cases hb : ciRef.bind (fun r => w.c.channels.find? (fun e => e.ref == r))
  all_goals simp only [hb]
  all_goals repeat' split
  all_goals refine ⟨?_, ?_, ?_, ?_⟩
  all_goals first | rfl | trivial

/-! ## The queue drain in the spec's words (§4.6) -/

/-- Queue drain as the specification words it: walk a snapshot of the queue
in FIFO order; for each entry resolve its channel (the pinned entry if
present, otherwise by the stored destination), attempt a direct send, and
drop the entry exactly when the send succeeds; failed entries stay in their
original order.  The walk itself does not touch the stored queue; it returns
the kept entries and the number of removed ones. -/
def queue_drain_spec_go (env : Env) (w : W) :
    List mg_rpc_queue_entry →
    List mg_rpc_queue_entry × Nat × W × List Ev
  | [] => ([], 0, w, [])
  | qe :: tqe =>
    let (ciRef, c1, t1) :=
      match qe.ci with
      | some r => (some r, w.c, ([] : List Ev))
      | none =>
        let (r, c1, _d, t) := mg_rpc_get_channel_info_internal_by_dst env w.c qe.dst
        (r, c1, t)
    let w1 : W := { w with c := c1 }
    let (ok, w2, t2) := mg_rpc_send_frame w1 ciRef qe.frame
    let (kept, nrem, w3, t3) := queue_drain_spec_go env w2 tqe
    (if ok then kept else qe :: kept, if ok then nrem + 1 else nrem, w3,
     t1 ++ t2 ++ t3)

/-- The drain per the spec: walk the stored queue, then install the kept
entries and subtract the number of removed entries from the length counter. -/
def queue_drain_spec (env : Env) (w : W) : W × List Ev :=
  let (kept, nrem, w1, t) := queue_drain_spec_go env w w.c.queue
  ({ w1 with c := { w1.c with queue := kept, queue_len := w1.c.queue_len - nrem } }, t)

theorem getCIByDst_state_eq {env : Env} {c : mg_rpc} {dst : String}
    {r : Option Nat} {c1 : mg_rpc} {d1 : String} {t : List Ev}
    (heq : mg_rpc_get_channel_info_internal_by_dst env c dst = (r, c1, d1, t)) :
    c1.queue = c.queue ∧ c1.queue_len = c.queue_len ∧ c1.cfg = c.cfg ∧
    c.next_ref ≤ c1.next_ref := by
  have hh := getCIByDst_state env c dst
  rw [heq] at hh
  exact hh

theorem send_frame_state_eq {w : W} {ciRef : Option Nat} {f : OutFrame}
    {ok : Bool} {w2 : W} {t : List Ev}
    (heq : mg_rpc_send_frame w ciRef f = (ok, w2, t)) :
    w2.c.queue = w.c.queue ∧ w2.c.queue_len = w.c.queue_len ∧
    w2.c.cfg = w.c.cfg ∧ w2.c.next_ref = w.c.next_ref := by
  have hh := send_frame_state w ciRef f
  rw [heq] at hh
  exact hh

theorem queue_drain_spec_go_state (env : Env) (rest : List mg_rpc_queue_entry) :
    ∀ (w : W),
      (queue_drain_spec_go env w rest).2.2.1.c.queue = w.c.queue ∧
      (queue_drain_spec_go env w rest).2.2.1.c.queue_len = w.c.queue_len ∧
      (queue_drain_spec_go env w rest).2.2.1.c.cfg = w.c.cfg ∧
      w.c.next_ref ≤ (queue_drain_spec_go env w rest).2.2.1.c.next_ref := by
  induction rest with
  | nil => intro w; exact ⟨rfl, rfl, rfl, Nat.le_refl _⟩
  | cons qe tqe ih =>
    intro w
    unfold queue_drain_spec_go
    cases hci : qe.ci with
    | some r =>
      simp only [hci]
      generalize hs : mg_rpc_send_frame _ _ _ = sres
      obtain ⟨ok, w2, t2⟩ := sres
      obtain ⟨hq2, hl2, hc2, hr2⟩ := send_frame_state_eq hs
      generalize hrec : queue_drain_spec_go env w2 tqe = rres
      obtain ⟨kept, nrem, w3, t3⟩ := rres
      have hih := ih w2
      rw [hrec] at hih
      obtain ⟨hq3, hl3, hc3, hr3⟩ := hih
      refine ⟨hq3.trans hq2, hl3.trans hl2, hc3.trans hc2, ?_⟩
      rw [show w.c.next_ref = w2.c.next_ref from hr2.symm]
      exact hr3
    | none =>
      simp only [hci]
      generalize hg : mg_rpc_get_channel_info_internal_by_dst env w.c qe.dst = gres
      obtain ⟨rr, c1, d1, t1⟩ := gres
      obtain ⟨hgq, hgl, hgc, hgr⟩ := getCIByDst_state_eq hg
      generalize hs : mg_rpc_send_frame _ _ _ = sres
      obtain ⟨ok, w2, t2⟩ := sres
      obtain ⟨hq2, hl2, hc2, hr2⟩ := send_frame_state_eq hs
      generalize hrec : queue_drain_spec_go env w2 tqe = rres
      obtain ⟨kept, nrem, w3, t3⟩ := rres
      have hih := ih w2
      rw [hrec] at hih
      obtain ⟨hq3, hl3, hc3, hr3⟩ := hih
      refine ⟨(hq3.trans hq2).trans hgq, (hl3.trans hl2).trans hgl,
        (hc3.trans hc2).trans hgc, ?_⟩
      refine le_trans hgr (le_trans ?_ hr3)
      exact le_of_eq hr2.symm

theorem queue_drain_spec_go_sublist (env : Env) (rest : List mg_rpc_queue_entry) :
    ∀ (w : W), ((queue_drain_spec_go env w rest).1).Sublist rest := by
  induction rest with
  | nil => intro w; exact List.Sublist.refl _
  | cons qe tqe ih =>
    intro w
    unfold queue_drain_spec_go
    cases hci : qe.ci with
    | some r =>
      simp only [hci]
      generalize hs : mg_rpc_send_frame _ _ _ = sres
      obtain ⟨ok, w2, t2⟩ := sres
      generalize hrec : queue_drain_spec_go env w2 tqe = rres
      obtain ⟨kept, nrem, w3, t3⟩ := rres
      have hih : kept.Sublist tqe := by
        have hh := ih w2
        rw [hrec] at hh
        exact hh
      cases ok
      · simp only [Bool.false_eq_true, if_false]
        exact List.Sublist.cons₂ qe hih
      · simp only [if_true]
        exact List.Sublist.cons qe hih
    | none =>
      simp only [hci]
      generalize hg : mg_rpc_get_channel_info_internal_by_dst env w.c qe.dst = gres
      obtain ⟨rr, c1, d1, t1⟩ := gres
      generalize hs : mg_rpc_send_frame _ _ _ = sres
      obtain ⟨ok, w2, t2⟩ := sres
      generalize hrec : queue_drain_spec_go env w2 tqe = rres
      obtain ⟨kept, nrem, w3, t3⟩ := rres
      have hih : kept.Sublist tqe := by
        have hh := ih w2
        rw [hrec] at hh
        exact hh
      cases ok
      · simp only [Bool.false_eq_true, if_false]
        exact List.Sublist.cons₂ qe hih
      · simp only [if_true]
        exact List.Sublist.cons qe hih

theorem queue_drain_spec_go_count (env : Env) (rest : List mg_rpc_queue_entry) :
    ∀ (w : W),
      (queue_drain_spec_go env w rest).1.length + (queue_drain_spec_go env w rest).2.1
        = rest.length := by
  induction rest with
  | nil => intro w; rfl
  | cons qe tqe ih =>
    intro w
    unfold queue_drain_spec_go
    cases hci : qe.ci with
    | some r =>
      simp only [hci]
      generalize hs : mg_rpc_send_frame _ _ _ = sres
      obtain ⟨ok, w2, t2⟩ := sres
      generalize hrec : queue_drain_spec_go env w2 tqe = rres
      obtain ⟨kept, nrem, w3, t3⟩ := rres
      have hih : kept.length + nrem = tqe.length := by
        have hh := ih w2
        rw [hrec] at hh
        exact hh
      cases ok
      · simp only [Bool.false_eq_true, if_false, List.length_cons]
        omega
      · simp only [if_true, List.length_cons]
        omega
    | none =>
      simp only [hci]
      generalize hg : mg_rpc_get_channel_info_internal_by_dst env w.c qe.dst = gres
      obtain ⟨rr, c1, d1, t1⟩ := gres
      generalize hs : mg_rpc_send_frame _ _ _ = sres
      obtain ⟨ok, w2, t2⟩ := sres
      generalize hrec : queue_drain_spec_go env w2 tqe = rres
      obtain ⟨kept, nrem, w3, t3⟩ := rres
      have hih : kept.length + nrem = tqe.length := by
        have hh := ih w2
        rw [hrec] at hh
        exact hh
      cases ok
      · simp only [Bool.false_eq_true, if_false, List.length_cons]
        omega
      · simp only [if_true, List.length_cons]
        omega

theorem setQW_c (w : W) (q : List mg_rpc_queue_entry) (n : Int) :
    (setQW w q n).c = setQ w.c q n := rfl

theorem setQW_collapse (w : W) (q : List mg_rpc_queue_entry) (n : Int)
    (c1 : mg_rpc) :
    ({ setQW w q n with c := setQ c1 q n } : W) = setQW { w with c := c1 } q n := rfl

theorem remove_setQW (w : W) (q : List mg_rpc_queue_entry) (n : Int)
    (qe : mg_rpc_queue_entry) :
    ({ setQW w q n with c := mg_rpc_remove_queue_entry (setQW w q n).c qe } : W)
      = setQW w (List.eraseP (fun e => e.ref == qe.ref) q) (n - 1) := rfl

/-- The queue walk of `mg_rpc_process_queue` computes exactly the drain the
specification words describe: on a state whose stored queue is
`pre ++ rest` (already-visited prefix and the snapshot still to walk), with
node identities distinct, it yields the spec walk's final state with the
kept entries reinstalled behind the prefix and the removed count subtracted
from the length counter. -/
theorem process_queue_go_char (env : Env) (rest : List mg_rpc_queue_entry) :
    ∀ (w : W) (pre : List mg_rpc_queue_entry) (n : Int),
      ((pre ++ rest).map (fun e => e.ref)).Nodup →
      mg_rpc_process_queue_go env (setQW w (pre ++ rest) n) rest =
        (setQW (queue_drain_spec_go env w rest).2.2.1
               (pre ++ (queue_drain_spec_go env w rest).1)
               (n - ((queue_drain_spec_go env w rest).2.1 : Int)),
         (queue_drain_spec_go env w rest).2.2.2) := by
  induction rest with
  | nil =>
    intro w pre n _
    simp [mg_rpc_process_queue_go, queue_drain_spec_go]
  | cons qe tqe ih =>
    intro w pre n hnd
    have hnd' : ((pre ++ tqe).map (fun e => e.ref)).Nodup := by
      refine List.Nodup.sublist ?_ hnd
      exact List.Sublist.map _ ((List.append_sublist_append_left pre).mpr
        (List.Sublist.cons qe (List.Sublist.refl tqe)))
    have hnd2 : (((pre ++ [qe]) ++ tqe).map (fun e => e.ref)).Nodup := by
      simpa using hnd
    have herase : List.eraseP (fun e => e.ref == qe.ref) (pre ++ qe :: tqe)
        = pre ++ tqe :=
      eraseP_key_append (fun e => e.ref) pre tqe qe hnd
    unfold mg_rpc_process_queue_go queue_drain_spec_go
    cases hci : qe.ci with
    | some r =>
      simp only [hci, setQW_c, setQW_collapse]
      rw [send_frame_setQW]
      generalize hs : mg_rpc_send_frame { w with c := w.c } (some r) qe.frame = sres
      obtain ⟨ok, w2, t2⟩ := sres
      dsimp only
      cases ok
      · simp only [Bool.false_eq_true, if_false]
        rw [show pre ++ qe :: tqe = (pre ++ [qe]) ++ tqe by simp]
        rw [ih w2 (pre ++ [qe]) n hnd2]
        generalize hrec : queue_drain_spec_go env w2 tqe = rres
        obtain ⟨kept, nrem, w3, t3⟩ := rres
        simp
      · simp only [if_true]
        rw [remove_setQW, herase]
        rw [ih w2 pre (n - 1) hnd']
        generalize hrec : queue_drain_spec_go env w2 tqe = rres
        obtain ⟨kept, nrem, w3, t3⟩ := rres
        have hn : (n - 1) - (nrem : Int) = n - ((nrem + 1 : Nat) : Int) := by
          push_cast
          ring
        rw [hn]
    | none =>
      simp only [hci, setQW_c]
      rw [getCIByDst_setQ]
      generalize hg : mg_rpc_get_channel_info_internal_by_dst env w.c qe.dst = gres
      obtain ⟨rr, c1, d1, t1⟩ := gres
      dsimp only
      simp only [setQW_collapse]
      rw [send_frame_setQW]
      generalize hs : mg_rpc_send_frame { w with c := c1 } rr qe.frame = sres
      obtain ⟨ok, w2, t2⟩ := sres
      dsimp only
      cases ok
      · simp only [Bool.false_eq_true, if_false]
        rw [show pre ++ qe :: tqe = (pre ++ [qe]) ++ tqe by simp]
        rw [ih w2 (pre ++ [qe]) n hnd2]
        generalize hrec : queue_drain_spec_go env w2 tqe = rres
        obtain ⟨kept, nrem, w3, t3⟩ := rres
        simp
      · simp only [if_true]
        rw [remove_setQW, herase]
        rw [ih w2 pre (n - 1) hnd']
        generalize hrec : queue_drain_spec_go env w2 tqe = rres
        obtain ⟨kept, nrem, w3, t3⟩ := rres
        have hn : (n - 1) - (nrem : Int) = n - ((nrem + 1 : Nat) : Int) := by
          push_cast
          ring
        rw [hn]

/-! ## Claim C6 — the queue drain in FIFO order -/

/-- Claim C6: provided the queue nodes are pairwise distinct objects
(pointer identity, modelled as distinct `ref` keys), `mg_rpc_process_queue`
computes exactly the drain the specification describes: it visits the queue
entries in FIFO order, resolves each entry's channel (the pinned entry when
present, otherwise by the stored destination), attempts a direct send,
removes the entry exactly when the send succeeds and keeps the entries whose
send fails in place; in particular the surviving queue is a sublist of the
original queue, so the relative order of remaining entries never changes. -/
theorem C6_queue_drain_fifo (env : Env) (w : W)
    (hnd : (w.c.queue.map (fun e => e.ref)).Nodup) :
    mg_rpc_process_queue env w = queue_drain_spec env w ∧
    ((mg_rpc_process_queue env w).1.c.queue).Sublist w.c.queue := by
  have hchar := process_queue_go_char env w.c.queue w [] w.c.queue_len
    (by simpa using hnd)
  have hLHS : mg_rpc_process_queue env w
      = (setQW (queue_drain_spec_go env w w.c.queue).2.2.1
               ([] ++ (queue_drain_spec_go env w w.c.queue).1)
               (w.c.queue_len - ((queue_drain_spec_go env w w.c.queue).2.1 : Int)),
         (queue_drain_spec_go env w w.c.queue).2.2.2) := hchar
  have hst := queue_drain_spec_go_state env w.c.queue w
  have hsub := queue_drain_spec_go_sublist env w.c.queue w
  constructor
  · rw [hLHS]
    unfold queue_drain_spec
    generalize hrec : queue_drain_spec_go env w w.c.queue = rr
    rw [hrec] at hst
    obtain ⟨kept, nrem, wS, tS⟩ := rr
    obtain ⟨hq, hl, _, _⟩ := hst
    dsimp only
    rw [hl]
    simp [setQW, setQ]
  · rw [hLHS]
    simp only [setQW, setQ, List.nil_append]
    exact hsub

/-- An outgoing frame stocked on the concrete queue. -/
def frQ6 : OutFrame :=
  { id := 7, src := "me", dst := "*", tag := "", key := "",
    payload := Payload.result "1" }

/-- A queue entry pinned to the channel entry `ci0`. -/
def qeA : mg_rpc_queue_entry := { ref := 10, dst := "*", frame := frQ6, ci := some 0 }

/-- A queue entry resolved by its stored destination. -/
def qeB : mg_rpc_queue_entry :=
  { ref := 11, dst := "*", frame := { frQ6 with id := 8 }, ci := none }

/-- A concrete world with a two-entry queue: the transport accepts the first
send and refuses the second. -/
def wQ6 : W :=
  { c := { c0 with queue := [qeA, qeB], queue_len := 2 },
    oracle := [true, false], rands := [] }

/-- Claim C6 witness: on the concrete two-entry queue the drain coincides
with the specification's walk and leaves a sublist of the original queue. -/
theorem C6_witness :
    mg_rpc_process_queue env0 wQ6 = queue_drain_spec env0 wQ6 ∧
    ((mg_rpc_process_queue env0 wQ6).1.c.queue).Sublist wQ6.c.queue :=
  C6_queue_drain_fifo env0 wQ6 (by decide)

/-! ## Claim C5 — the queue-length bound -/

/-- Config preserved and the length bound carried along one state change. -/
def QBPres (c c' : mg_rpc) : Prop :=
  c'.cfg = c.cfg ∧
  (c.queue_len ≤ c.cfg.max_queue_length → c'.queue_len ≤ c.cfg.max_queue_length)

theorem qbpres_refl (c : mg_rpc) : QBPres c c := ⟨rfl, fun h => h⟩

theorem qbpres_trans {a b c : mg_rpc} (h1 : QBPres a b) (h2 : QBPres b c) :
    QBPres a c := by
  obtain ⟨hc1, hl1⟩ := h1
  obtain ⟨hc2, hl2⟩ := h2
  refine ⟨hc2.trans hc1, fun h => ?_⟩
  have hb : b.queue_len ≤ b.cfg.max_queue_length := by
    rw [hc1]
    exact hl1 h
  have hcc := hl2 hb
  rw [hc1] at hcc
  exact hcc

theorem qbpres_of_le {c c' : mg_rpc} (hcfg : c'.cfg = c.cfg)
    (hle : c'.queue_len ≤ c.queue_len) : QBPres c c' :=
  ⟨hcfg, fun h => le_trans hle h⟩

theorem qbpres_apply {c c' : mg_rpc} (h : QBPres c c')
    (hb : c.queue_len ≤ c.cfg.max_queue_length) :
    c'.queue_len ≤ c'.cfg.max_queue_length := by
  obtain ⟨hcfg, himp⟩ := h
  rw [hcfg]
  exact himp hb

theorem qb_getCIByDst (env : Env) (c : mg_rpc) (dst : String) :
    QBPres c (mg_rpc_get_channel_info_internal_by_dst env c dst).2.1 := by
  obtain ⟨_, hl, hc, _⟩ := getCIByDst_state env c dst
  exact ⟨hc, fun h => le_trans (le_of_eq hl) h⟩

theorem qb_getCIByDst_eq {env : Env} {c : mg_rpc} {dst : String}
    {r : Option Nat} {c1 : mg_rpc} {d1 : String} {t : List Ev}
    (heq : mg_rpc_get_channel_info_internal_by_dst env c dst = (r, c1, d1, t)) :
    QBPres c c1 := by
  have hh := qb_getCIByDst env c dst
  rw [heq] at hh
  exact hh

theorem qb_send_frame (w : W) (ciRef : Option Nat) (f : OutFrame) :
    QBPres w.c (mg_rpc_send_frame w ciRef f).2.1.c := by
  obtain ⟨_, hl, hc, _⟩ := send_frame_state w ciRef f
  exact ⟨hc, fun h => le_trans (le_of_eq hl) h⟩

theorem qb_send_frame_eq {w : W} {ciRef : Option Nat} {f : OutFrame}
    {ok : Bool} {w2 : W} {t : List Ev}
    (heq : mg_rpc_send_frame w ciRef f = (ok, w2, t)) :
    QBPres w.c w2.c := by
  have hh := qb_send_frame w ciRef f
  rw [heq] at hh
  exact hh

theorem qb_enqueue (c : mg_rpc) (ci : Option Nat) (dst : String) (f : OutFrame) :
    QBPres c (mg_rpc_enqueue_frame c ci dst f).2 := by
  unfold mg_rpc_enqueue_frame
  by_cases hg : c.queue_len ≥ c.cfg.max_queue_length
  · rw [if_pos hg]
    exact qbpres_refl c
  · rw [if_neg hg]
    refine ⟨rfl, fun _ => ?_⟩
    show c.queue_len + 1 ≤ c.cfg.max_queue_length
    omega

theorem qb_enqueue_eq {c : mg_rpc} {ci : Option Nat} {dst : String}
    {f : OutFrame} {qok : Bool} {c3 : mg_rpc}
    (heq : mg_rpc_enqueue_frame c ci dst f = (qok, c3)) : QBPres c c3 := by
  have hh := qb_enqueue c ci dst f
  rw [heq] at hh
  exact hh

theorem qb_remove (c : mg_rpc) (qe : mg_rpc_queue_entry) :
    QBPres c (mg_rpc_remove_queue_entry c qe) := by
  refine qbpres_of_le rfl ?_
  show c.queue_len - 1 ≤ c.queue_len
  omega

theorem qb_dispatch (env : Env) (w : W) (src dst : String) (id : Int)
    (tag key : String) (ci : Option Nat) (enq : Bool) (payload : Payload) :
    QBPres w.c (mg_rpc_dispatch_frame env w src dst id tag key ci enq payload).2.1.c := by
  unfold mg_rpc_dispatch_frame
  cases ci with
  | some r =>
    simp only
    generalize hs : mg_rpc_send_frame _ _ _ = sres
    obtain ⟨ok, w2, t1⟩ := sres
    have h2 := qb_send_frame_eq hs
    cases ok
    · by_cases he : enq = true
      · simp only [he, Bool.false_eq_true, if_false, if_true]
        generalize hq : mg_rpc_enqueue_frame _ _ _ _ = qres
        obtain ⟨qok, c3⟩ := qres
        exact qbpres_trans h2 (qb_enqueue_eq hq)
      · simp only [he, Bool.false_eq_true, if_false]
        exact h2
    · simp only [if_true]
      exact h2
  | none =>
    simp only
    generalize hg : mg_rpc_get_channel_info_internal_by_dst env w.c dst = gres
    obtain ⟨rr, c1, d1, t0⟩ := gres
    have h1 := qb_getCIByDst_eq hg
    generalize hs : mg_rpc_send_frame _ _ _ = sres
    obtain ⟨ok, w2, t1⟩ := sres
    have h2 := qbpres_trans h1 (qb_send_frame_eq hs)
    cases ok
    · by_cases he : enq = true
      · simp only [he, Bool.false_eq_true, if_false, if_true]
        generalize hq : mg_rpc_enqueue_frame _ _ _ _ = qres
        obtain ⟨qok, c3⟩ := qres
        exact qbpres_trans h2 (qb_enqueue_eq hq)
      · simp only [he, Bool.false_eq_true, if_false]
        exact h2
    · simp only [if_true]
      exact h2

theorem qb_dispatch_eq {env : Env} {w : W} {src dst : String} {id : Int}
    {tag key : String} {ci : Option Nat} {enq : Bool} {payload : Payload}
    {ok : Bool} {w2 : W} {t : List Ev}
    (heq : mg_rpc_dispatch_frame env w src dst id tag key ci enq payload = (ok, w2, t)) :
    QBPres w.c w2.c := by
  have hh := qb_dispatch env w src dst id tag key ci enq payload
  rw [heq] at hh
  exact hh

theorem handle_response_qstate (c : mg_rpc) (id : Int) (res : String)
    (ec : Int) (em : String) :
    (mg_rpc_handle_response c id res ec em).2.1.queue_len = c.queue_len ∧
    (mg_rpc_handle_response c id res ec em).2.1.cfg = c.cfg := by
  unfold mg_rpc_handle_response
  repeat' split
  all_goals exact ⟨rfl, rfl⟩

theorem qb_handle_response (c : mg_rpc) (id : Int) (res : String)
    (ec : Int) (em : String) :
    QBPres c (mg_rpc_handle_response c id res ec em).2.1 := by
  obtain ⟨hl, hc⟩ := handle_response_qstate c id res ec em
  exact ⟨hc, fun h => le_trans (le_of_eq hl) h⟩

theorem qb_send_errorf (env : Env) (w : W) (ri : mg_rpc_request_info)
    (ec : Int) (isj : Bool) (msg : Option String) :
    QBPres w.c (send_errorf env w ri ec isj msg).2.1.c := by
  unfold send_errorf
  exact qb_dispatch _ _ _ _ _ _ _ _ _ _

theorem qb_send_errorf_eq {env : Env} {w : W} {ri : mg_rpc_request_info}
    {ec : Int} {isj : Bool} {msg : Option String} {ok : Bool} {w1 : W}
    {t : List Ev} (heq : send_errorf env w ri ec isj msg = (ok, w1, t)) :
    QBPres w.c w1.c := by
  have hh := qb_send_errorf env w ri ec isj msg
  rw [heq] at hh
  exact hh

theorem qb_send_responsef (env : Env) (w : W) (ri : mg_rpc_request_info)
    (body : Option String) :
    QBPres w.c (mg_rpc_send_responsef env w ri body).2.1.c := by
  unfold mg_rpc_send_responsef
  exact qb_dispatch _ _ _ _ _ _ _ _ _ _

theorem qb_handle_request (env : Env) (w : W)
    (ci : mg_rpc_channel_info_internal) (frame : mg_rpc_frame) :
    QBPres w.c (mg_rpc_handle_request env w ci frame).2.1.c := by
  unfold mg_rpc_handle_request
  cases hf : w.c.handlers.find? (fun hi => frame.method == hi.method) with
  | none =>
    simp only [hf]
    generalize he : send_errorf _ _ _ _ _ _ = eres
    obtain ⟨b, w1, t1⟩ := eres
    exact qb_send_errorf_eq he
  | some hi =>
    simp only [hf]
    exact qbpres_refl _

theorem qb_handle_frame (env : Env) (w : W)
    (ci : mg_rpc_channel_info_internal) (frame : mg_rpc_frame) :
    QBPres w.c (mg_rpc_handle_frame env w ci frame).2.1.c := by
  unfold mg_rpc_handle_frame
  by_cases ho : (!ci.is_open) = true
  · simp only [ho, if_true]
    exact qbpres_refl _
  · simp only [ho, Bool.false_eq_true, if_false]
    by_cases hd : (frame.dst.length != 0 && !(is_local_id w.c frame.dst)) = true
    · simp only [hd, if_true]
      exact qbpres_refl _
    · simp only [hd, Bool.false_eq_true, if_false]
      by_cases hz : (ci.dst.length == 0) = true
      · simp only [hz, if_true]
        by_cases hm : frame.method.length > 0
        · simp only [hm, if_true]
          exact qbpres_trans (qbpres_of_le rfl (le_refl _))
            (qb_handle_request env _ _ frame)
        · simp only [hm, if_false]
          exact qbpres_trans (qbpres_of_le rfl (le_refl _))
            (qb_handle_response _ frame.id frame.result frame.error_code
              frame.error_msg)
      · simp only [hz, Bool.false_eq_true, if_false]
        by_cases hm : frame.method.length > 0
        · simp only [hm, if_true]
          exact qb_handle_request env w ci frame
        · simp only [hm, if_false]
          exact qb_handle_response w.c frame.id frame.result frame.error_code
            frame.error_msg

theorem qb_process_queue_go (env : Env) (rest : List mg_rpc_queue_entry) :
    ∀ (w : W), QBPres w.c (mg_rpc_process_queue_go env w rest).1.c := by
  induction rest with
  | nil => intro w; exact qbpres_refl _
  | cons qe tqe ih =>
    intro w
    unfold mg_rpc_process_queue_go
    cases hci : qe.ci with
    | some r =>
      simp only [hci]
      generalize hs : mg_rpc_send_frame _ _ _ = sres
      obtain ⟨ok, w2, t2⟩ := sres
      have h2 := qb_send_frame_eq hs
      cases ok
      · simp only [Bool.false_eq_true, if_false]
        exact qbpres_trans h2 (ih w2)
      · simp only [if_true]
        exact qbpres_trans h2 (qbpres_trans (qb_remove w2.c qe) (ih _))
    | none =>
      simp only [hci]
      generalize hg : mg_rpc_get_channel_info_internal_by_dst env w.c qe.dst = gres
      obtain ⟨rr, c1, d1, t0⟩ := gres
      have h1 := qb_getCIByDst_eq hg
      generalize hs : mg_rpc_send_frame _ _ _ = sres
      obtain ⟨ok, w2, t2⟩ := sres
      have h2 := qbpres_trans h1 (qb_send_frame_eq hs)
      cases ok
      · simp only [Bool.false_eq_true, if_false]
        exact qbpres_trans h2 (ih w2)
      · simp only [if_true]
        exact qbpres_trans h2 (qbpres_trans (qb_remove w2.c qe) (ih _))

theorem qb_process_queue (env : Env) (w : W) :
    QBPres w.c (mg_rpc_process_queue env w).1.c :=
  qb_process_queue_go env w.c.queue w

theorem purge_go_qstate (ciRef : Nat) (l : List mg_rpc_queue_entry) :
    ∀ (c : mg_rpc), (mg_rpc_closed_purge_go ciRef c l).cfg = c.cfg ∧
      (mg_rpc_closed_purge_go ciRef c l).queue_len ≤ c.queue_len := by
  induction l with
  | nil => intro c; exact ⟨rfl, le_refl _⟩
  | cons qe tqe ih =>
    intro c
    unfold mg_rpc_closed_purge_go
    by_cases hq : (qe.ci == some ciRef) = true
    · simp only [hq, if_true]
      obtain ⟨h1, h2⟩ := ih (mg_rpc_remove_queue_entry c qe)
      refine ⟨h1.trans rfl, le_trans h2 ?_⟩
      show c.queue_len - 1 ≤ c.queue_len
      omega
    · simp only [hq, Bool.false_eq_true, if_false]
      exact ih c

theorem purge_go_qstate_eq {ciRef : Nat} {c c2 : mg_rpc}
    {l : List mg_rpc_queue_entry}
    (heq : mg_rpc_closed_purge_go ciRef c l = c2) :
    c2.cfg = c.cfg ∧ c2.queue_len ≤ c.queue_len := by
  have hh := purge_go_qstate ciRef l c
  rw [heq] at hh
  exact hh

theorem qb_broadcast_go (env : Env) (src dst : String) (id : Int)
    (tag key : String) (payload : Payload)
    (l : List mg_rpc_channel_info_internal) :
    ∀ (w : W), QBPres w.c (mg_rpc_broadcast_go env w src dst id tag key payload l).2.1.c := by
  induction l with
  | nil => intro w; exact qbpres_refl _
  | cons ci rest ih =>
    intro w
    unfold mg_rpc_broadcast_go
    cases hbe : ci.ch.is_broadcast_enabled with
    | none => simp only [hbe]; exact ih w
    | some b =>
      simp only [hbe]
      cases b
      · simp only [Bool.not_false, if_true]
        exact ih w
      · simp only [Bool.not_true, Bool.false_eq_true, if_false]
        generalize hd : mg_rpc_dispatch_frame env w src dst id tag key
          (some ci.ref) false payload = dres
        obtain ⟨r1, w1, t1⟩ := dres
        generalize hb2 : mg_rpc_broadcast_go env w1 src dst id tag key payload rest = bres
        obtain ⟨r2, w2, t2⟩ := bres
        have h2 : QBPres w1.c w2.c := by
          have hh := ih w1
          rw [hb2] at hh
          exact hh
        exact qbpres_trans (qb_dispatch_eq hd) h2

theorem qb_ev_handler (env : Env) (w : W) (chRef : Nat) (ev : ChannelEvent) :
    QBPres w.c (mg_rpc_ev_handler env w chRef ev).1.c := by
  cases ev with
  | OPEN =>
    unfold mg_rpc_ev_handler
    cases hfind : w.c.channels.find? (fun ci => ci.ch.ref == chRef) with
    | none => simp only [hfind]; exact qbpres_refl _
    | some ci =>
      simp only [hfind]
      refine qbpres_trans ?_ (qb_process_queue env _)
      exact qbpres_of_le rfl (le_refl _)
  | FRAME_RECD s =>
    unfold mg_rpc_ev_handler
    cases hfind : w.c.channels.find? (fun ci => ci.ch.ref == chRef) with
    | none => simp only [hfind]; exact qbpres_refl _
    | some ci =>
      simp only [hfind]
      cases hp : mg_rpc_parse_frame s with
      | none => simp only [hp]; exact qbpres_refl _
      | some frame =>
        simp only [hp]
        have h1 := qb_handle_frame env w ci frame
        cases hok : (mg_rpc_handle_frame env w ci frame).1 <;>
          simp only [hok, Bool.not_true, Bool.not_false, Bool.false_eq_true,
            if_true, if_false] <;>
          exact h1
  | FRAME_RECD_PARSED frame =>
    unfold mg_rpc_ev_handler
    cases hfind : w.c.channels.find? (fun ci => ci.ch.ref == chRef) with
    | none => simp only [hfind]; exact qbpres_refl _
    | some ci =>
      simp only [hfind]
      have h1 := qb_handle_frame env w ci frame
      cases hok : (mg_rpc_handle_frame env w ci frame).1 <;>
        simp only [hok, Bool.not_true, Bool.not_false, Bool.false_eq_true,
          if_true, if_false] <;>
        exact h1
  | FRAME_SENT success =>
    unfold mg_rpc_ev_handler
    cases hfind : w.c.channels.find? (fun ci => ci.ch.ref == chRef) with
    | none => simp only [hfind]; exact qbpres_refl _
    | some ci =>
      simp only [hfind]
      refine qbpres_trans ?_ (qb_process_queue env _)
      exact qbpres_of_le rfl (le_refl _)
  | CLOSED =>
    unfold mg_rpc_ev_handler
    cases hfind : w.c.channels.find? (fun ci => ci.ch.ref == chRef) with
    | none => simp only [hfind]; exact qbpres_refl _
    | some ci =>
      simp only [hfind]
      by_cases hrm : (!ci.ch.is_persistent) = true
      · rw [if_pos hrm]
        generalize hp : mg_rpc_closed_purge_go ci.ref _ _ = c2
        obtain ⟨hcfg, hlen⟩ := purge_go_qstate_eq hp
        refine ⟨?_, fun h => ?_⟩
        · exact hcfg
        · exact le_trans hlen h
      · rw [if_neg hrm]
        exact qbpres_of_le rfl (le_refl _)

theorem qb_vcallf (env : Env) (c_null : Bool) (w : W) (method : String)
    (cb : Option Nat) (o : mg_rpc_call_opts) (args_jsonf : Option String) :
    ∀ r w1 t, mg_rpc_vcallf env c_null w method cb (some o) args_jsonf = some (r, w1, t) →
      QBPres w.c w1.c := by
  intro r w1 t heq
  simp only [mg_rpc_vcallf] at heq
  by_cases hnull : c_null = true
  · rw [if_pos hnull] at heq
    cases heq
    exact qbpres_refl _
  · rw [if_neg hnull] at heq
    by_cases hbc : (!o.broadcast) = true
    · rw [if_pos hbc] at heq
      generalize hd : mg_rpc_dispatch_frame env (mg_rpc_get_id w).2
          (if (o.src.length == 0) = true then (mg_rpc_get_id w).2.c.cfg.id else o.src)
          (if o.dst.length > 0 then o.dst else "") (mg_rpc_get_id w).1
          (if o.tag.length > 0 then o.tag else "") (if o.key.length > 0 then o.key else "")
          none (!o.no_queue) (Payload.call cb.isNone method args_jsonf) = dres at heq
      obtain ⟨rr, w2, t2⟩ := dres
      have hmid : QBPres w.c (mg_rpc_get_id w).2.c := qbpres_of_le rfl (le_refl _)
      have h2 : QBPres w.c w2.c := qbpres_trans hmid (qb_dispatch_eq hd)
      repeat' split at heq
      all_goals cases heq
      all_goals exact h2
    · rw [if_neg hbc] at heq
      generalize hb : mg_rpc_broadcast_go env (mg_rpc_get_id w).2
          (if (o.src.length == 0) = true then (mg_rpc_get_id w).2.c.cfg.id else o.src)
          (if o.dst.length > 0 then o.dst else "") (mg_rpc_get_id w).1
          (if o.tag.length > 0 then o.tag else "") (if o.key.length > 0 then o.key else "")
          (Payload.call cb.isNone method args_jsonf)
          (mg_rpc_get_id w).2.c.channels = bres at heq
      obtain ⟨rr, w2, t2⟩ := bres
      have h2 : QBPres w.c w2.c := by
        have hh := qb_broadcast_go env
          (if (o.src.length == 0) = true then (mg_rpc_get_id w).2.c.cfg.id else o.src)
          (if o.dst.length > 0 then o.dst else "") (mg_rpc_get_id w).1
          (if o.tag.length > 0 then o.tag else "") (if o.key.length > 0 then o.key else "")
          (Payload.call cb.isNone method args_jsonf)
          (mg_rpc_get_id w).2.c.channels (mg_rpc_get_id w).2
        rw [hb] at hh
        have hmid : QBPres w.c (mg_rpc_get_id w).2.c := qbpres_of_le rfl (le_refl _)
        exact qbpres_trans hmid hh
      repeat' split at heq
      all_goals cases heq
      all_goals exact h2

theorem qb_is_connected (env : Env) (c : mg_rpc) :
    QBPres c (mg_rpc_is_connected env c).2 := by
  unfold mg_rpc_is_connected
  generalize hg : mg_rpc_get_channel_info_internal_by_dst env c env.dstDefault = gres
  obtain ⟨rr, c1, d1, t0⟩ := gres
  exact qb_getCIByDst_eq hg

theorem qb_can_send (env : Env) (c : mg_rpc) :
    QBPres c (mg_rpc_can_send env c).2 := by
  unfold mg_rpc_can_send
  generalize hg : mg_rpc_get_channel_info_internal_by_dst env c env.dstDefault = gres
  obtain ⟨rr, c1, d1, t0⟩ := gres
  exact qb_getCIByDst_eq hg

theorem qb_add_local_id (c : mg_rpc) (id : String) :
    QBPres c (mg_rpc_add_local_id c id) := by
  unfold mg_rpc_add_local_id
  split
  · exact qbpres_refl c
  · exact qbpres_of_le rfl (le_refl _)

/-- Claim C5: the send-queue length never exceeds the configured
`max_queue_length` at any observable moment: the bound holds for a freshly
created multiplexer (whose configured maximum is non-negative) and is
preserved by every multiplexer operation and channel event; an enqueue
attempted when `queue_len ≥ max_queue_length` fails and changes nothing, a
successful enqueue appends one entry and increments `queue_len`, and a
removal decrements `queue_len`. -/
theorem C5_queue_length_bound :
    (∀ cfg : mg_rpc_cfg, 0 ≤ cfg.max_queue_length →
       (mg_rpc_create cfg).queue_len ≤ (mg_rpc_create cfg).cfg.max_queue_length) ∧
    (∀ (env : Env) (w : W) (op : Op),
       w.c.queue_len ≤ w.c.cfg.max_queue_length →
       (step env w op).c.queue_len ≤ (step env w op).c.cfg.max_queue_length) ∧
    (∀ (c : mg_rpc) (ci : Option Nat) (dst : String) (f : OutFrame),
       c.queue_len ≥ c.cfg.max_queue_length →
       mg_rpc_enqueue_frame c ci dst f = (false, c)) ∧
    (∀ (c : mg_rpc) (ci : Option Nat) (dst : String) (f : OutFrame),
       ¬ c.queue_len ≥ c.cfg.max_queue_length →
       (mg_rpc_enqueue_frame c ci dst f).1 = true ∧
       (mg_rpc_enqueue_frame c ci dst f).2.queue_len = c.queue_len + 1 ∧
       (mg_rpc_enqueue_frame c ci dst f).2.queue
         = c.queue ++ [{ ref := c.next_ref, dst := dst, frame := f, ci := ci }]) ∧
    (∀ (c : mg_rpc) (qe : mg_rpc_queue_entry),
       (mg_rpc_remove_queue_entry c qe).queue_len = c.queue_len - 1) := by
  refine ⟨?_, ?_, ?_, ?_, ?_⟩
  · intro cfg h
    unfold mg_rpc_create mg_rpc_add_local_id
    split
    · exact h
    · exact h
  · intro env w op hb
    cases op with
    | chEv chRef ev => exact qbpres_apply (qb_ev_handler env w chRef ev) hb
    | callf m cb o fmt =>
      unfold step
      cases hv : mg_rpc_vcallf env false w m cb (some o) fmt with
      | none => simp only [hv]; exact hb
      | some out =>
        obtain ⟨r, w1, t⟩ := out
        simp only [hv]
        exact qbpres_apply (qb_vcallf env false w m cb o fmt r w1 t hv) hb
    | sendResponse ri body => exact qbpres_apply (qb_send_responsef env w ri body) hb
    | sendError ri code msg =>
      exact qbpres_apply (qb_send_errorf env w ri code false msg) hb
    | sendErrorJson ri code msg =>
      exact qbpres_apply (qb_send_errorf env w ri code true msg) hb
    | addChannel dst ch => exact hb
    | addHandler m fmt cb => exact hb
    | addObserver cb => exact hb
    | removeObserver cb => exact hb
    | addLocalId id => exact qbpres_apply (qb_add_local_id w.c id) hb
    | setPrehandler cb => exact hb
    | connect => exact hb
    | disconnect => exact hb
    | isConnected => exact qbpres_apply (qb_is_connected env w.c) hb
    | canSend => exact qbpres_apply (qb_can_send env w.c) hb
  · intro c ci dst f h
    unfold mg_rpc_enqueue_frame
    rw [if_pos h]
  · intro c ci dst f h
    unfold mg_rpc_enqueue_frame
    rw [if_neg h]
    exact ⟨rfl, rfl, rfl⟩
  · intro c qe
    rfl

/-- A concrete multiplexer whose queue is at the configured maximum. -/
def cFull : mg_rpc := { c0 with queue_len := 16 }

/-- Claim C5 witness: the bound at creation and across a concrete OPEN
event, a refused enqueue at the maximum, a successful enqueue below it, and
a decrementing removal, all at concrete states. -/
theorem C5_witness :
    ((mg_rpc_create cfg0).queue_len ≤ (mg_rpc_create cfg0).cfg.max_queue_length) ∧
    ((step env0 w0 (Op.chEv 0 ChannelEvent.OPEN)).c.queue_len
        ≤ (step env0 w0 (Op.chEv 0 ChannelEvent.OPEN)).c.cfg.max_queue_length) ∧
    (mg_rpc_enqueue_frame cFull none "*" frQ6 = (false, cFull)) ∧
    ((mg_rpc_enqueue_frame c0 none "*" frQ6).1 = true) ∧
    ((mg_rpc_remove_queue_entry c0 qeA).queue_len = c0.queue_len - 1) :=
  ⟨C5_queue_length_bound.1 cfg0 (by decide),
   C5_queue_length_bound.2.1 env0 w0 (Op.chEv 0 ChannelEvent.OPEN) (by decide),
   C5_queue_length_bound.2.2.1 cFull none "*" frQ6 (by decide),
   (C5_queue_length_bound.2.2.2.1 c0 none "*" frQ6 (by decide)).1,
   C5_queue_length_bound.2.2.2.2 c0 qeA⟩

/-! ## Claim C7 — channel teardown on CLOSED -/

/-- The purge walk of the `CLOSED` branch computes a filter: on a state
whose stored queue is `pre ++ rest` (visited prefix and snapshot still to
walk), with node identities distinct, it removes exactly the snapshot
entries pinned to the closing channel entry and decrements the length
counter once per removal. -/
theorem purge_go_char (ciRef : Nat) (rest : List mg_rpc_queue_entry) :
    ∀ (c : mg_rpc) (pre : List mg_rpc_queue_entry),
      c.queue = pre ++ rest →
      ((pre ++ rest).map (fun e => e.ref)).Nodup →
      mg_rpc_closed_purge_go ciRef c rest =
        { c with
            queue := pre ++ rest.filter (fun e => !(e.ci == some ciRef)),
            queue_len := c.queue_len
              - ((rest.filter (fun e => e.ci == some ciRef)).length : Int) } := by
  induction rest with
  | nil =>
    intro c pre hq hnd
    simp only [List.append_nil] at hq
    simp only [mg_rpc_closed_purge_go, List.filter_nil, List.append_nil,
      List.length_nil, Nat.cast_zero, sub_zero]
    rw [← hq]
  | cons qe tqe ih =>
    intro c pre hq hnd
    have hnd' : ((pre ++ tqe).map (fun e => e.ref)).Nodup := by
      refine List.Nodup.sublist ?_ hnd
      exact List.Sublist.map _ ((List.append_sublist_append_left pre).mpr
        (List.Sublist.cons qe (List.Sublist.refl tqe)))
    have hnd2 : (((pre ++ [qe]) ++ tqe).map (fun e => e.ref)).Nodup := by
      simpa using hnd
    have herase : List.eraseP (fun e => e.ref == qe.ref) (pre ++ qe :: tqe)
        = pre ++ tqe :=
      eraseP_key_append (fun e => e.ref) pre tqe qe hnd
    unfold mg_rpc_closed_purge_go
    by_cases hqe : (qe.ci == some ciRef) = true
    · simp only [hqe, if_true]
      have hq1 : (mg_rpc_remove_queue_entry c qe).queue = pre ++ tqe := by
        show List.eraseP (fun e => e.ref == qe.ref) c.queue = pre ++ tqe
        rw [hq]
        exact herase
      rw [ih (mg_rpc_remove_queue_entry c qe) pre hq1 hnd']
      have hfK : List.filter (fun e => !(e.ci == some ciRef)) (qe :: tqe)
          = List.filter (fun e => !(e.ci == some ciRef)) tqe := by
        simp [List.filter_cons, hqe]
      have hfR : List.filter (fun e => e.ci == some ciRef) (qe :: tqe)
          = qe :: List.filter (fun e => e.ci == some ciRef) tqe := by
        simp [List.filter_cons, hqe]
      rw [hfK, hfR]
      show ({ c with
          queue := pre ++ List.filter (fun e => !(e.ci == some ciRef)) tqe,
          queue_len := c.queue_len - 1
            - ((List.filter (fun e => e.ci == some ciRef) tqe).length : Int) } : mg_rpc)
        = { c with
            queue := pre ++ List.filter (fun e => !(e.ci == some ciRef)) tqe,
            queue_len := c.queue_len
              - (((qe :: List.filter (fun e => e.ci == some ciRef) tqe).length : Nat) : Int) }
      congr 1
      simp only [List.length_cons]
      push_cast
      ring
    · simp only [hqe, Bool.false_eq_true, if_false]
      rw [ih c (pre ++ [qe]) (by rw [hq]; simp) hnd2]
      have hfK : List.filter (fun e => !(e.ci == some ciRef)) (qe :: tqe)
          = qe :: List.filter (fun e => !(e.ci == some ciRef)) tqe := by
        simp [List.filter_cons, hqe]
      have hfR : List.filter (fun e => e.ci == some ciRef) (qe :: tqe)
          = List.filter (fun e => e.ci == some ciRef) tqe := by
        simp [List.filter_cons, hqe]
      rw [hfK, hfR]
      simp

/-- Claim C7: after a `CLOSED` event on a registered channel (with distinct
channel-entry and queue-node identities, automatic for real heap nodes), the
channel entry survives in the registry exactly when the transport reports
persistent: for a persistent channel the registry is only updated in place —
the entry remains with its open and busy flags cleared — and the queue is
untouched; for a non-persistent channel no entry with the closing entry's
identity remains, every queue entry pinned to it is removed (the queue
becomes the filter of the unpinned entries) and no surviving queue entry
pins it. -/
theorem C7_closed_channel (env : Env) (w : W) (chRef : Nat)
    (ci : mg_rpc_channel_info_internal)
    (hfind : w.c.channels.find? (fun e => e.ch.ref == chRef) = some ci)
    (hchnd : (w.c.channels.map (fun e => e.ref)).Nodup)
    (hqnd : (w.c.queue.map (fun e => e.ref)).Nodup) :
    (ci.ch.is_persistent = true →
       (mg_rpc_ev_handler env w chRef ChannelEvent.CLOSED).1.c.channels
           = updFirst (fun e => e.ch.ref == chRef)
               (fun e => { e with is_open := false, is_busy := false })
               w.c.channels ∧
       { ci with is_open := false, is_busy := false }
           ∈ (mg_rpc_ev_handler env w chRef ChannelEvent.CLOSED).1.c.channels ∧
       (mg_rpc_ev_handler env w chRef ChannelEvent.CLOSED).1.c.queue = w.c.queue) ∧
    (ci.ch.is_persistent = false →
       (∀ e ∈ (mg_rpc_ev_handler env w chRef ChannelEvent.CLOSED).1.c.channels,
           e.ref ≠ ci.ref) ∧
       (mg_rpc_ev_handler env w chRef ChannelEvent.CLOSED).1.c.queue
           = w.c.queue.filter (fun qe => !(qe.ci == some ci.ref)) ∧
       (∀ qe ∈ (mg_rpc_ev_handler env w chRef ChannelEvent.CLOSED).1.c.queue,
           qe.ci ≠ some ci.ref)) := by
  constructor
  · intro hp
    unfold mg_rpc_ev_handler
    simp only [hfind, hp, Bool.not_true, Bool.false_eq_true, if_false]
    refine ⟨trivial, ?_, trivial⟩
    exact updFirst_mem_of_find hfind
  · intro hp
    unfold mg_rpc_ev_handler
    simp only [hfind, hp, Bool.not_false, if_true]
    have hchar := purge_go_char ci.ref w.c.queue
      { w.c with
          channels := updFirst (fun e => e.ch.ref == chRef)
            (fun e => { e with is_open := false, is_busy := false })
            w.c.channels }
      [] (by simp) (by simpa using hqnd)
    rw [hchar]
    have hmapnd : ((updFirst (fun e => e.ch.ref == chRef)
        (fun e => { e with is_open := false, is_busy := false })
        w.c.channels).map (fun e => e.ref)).Nodup := by
      rw [updFirst_map_key (fun e => e.ref) (fun e => e.ch.ref == chRef)
        (fun e => { e with is_open := false, is_busy := false })
        w.c.channels (fun e => rfl)]
      exact hchnd
    refine ⟨?_, ?_, ?_⟩
    · intro e hme
      exact eraseP_key_not_mem (fun e => e.ref) ci.ref _ hmapnd e hme
    · simp
    · intro qe hqe
      have hmem : qe ∈ w.c.queue ∧ ¬qe.ci = some ci.ref := by simpa using hqe
      exact hmem.2

/-- A concrete non-persistent channel object. -/
def chan1 : Chan :=
  { ref := 1, is_persistent := false, is_broadcast_enabled := some false }

/-- A concrete open channel entry over the non-persistent channel. -/
def ciC7 : mg_rpc_channel_info_internal :=
  { ref := 5, dst := "peer", ch := chan1, is_open := true, is_busy := false }

/-- A queue entry pinned to the entry `ciC7`. -/
def qeP : mg_rpc_queue_entry :=
  { ref := 20, dst := "peer", frame := frQ6, ci := some 5 }

/-- A concrete world holding the non-persistent channel entry and a queue
with one entry pinned to it and one unpinned entry. -/
def wC7 : W :=
  { c := { c0 with channels := [ci0, ciC7], queue := [qeP, qeB], queue_len := 2 },
    oracle := [], rands := [] }

/-- Claim C7 witness: a `CLOSED` event on the concrete non-persistent
channel unlinks its registry entry and drops exactly the pinned queue
entry. -/
theorem C7_witness :
    (∀ e ∈ (mg_rpc_ev_handler env0 wC7 1 ChannelEvent.CLOSED).1.c.channels,
        e.ref ≠ ciC7.ref) ∧
    (mg_rpc_ev_handler env0 wC7 1 ChannelEvent.CLOSED).1.c.queue
        = wC7.c.queue.filter (fun qe => !(qe.ci == some ciC7.ref)) ∧
    (∀ qe ∈ (mg_rpc_ev_handler env0 wC7 1 ChannelEvent.CLOSED).1.c.queue,
        qe.ci ≠ some ciC7.ref) :=
  (C7_closed_channel env0 wC7 1 ciC7 (by decide) (by decide) (by decide)).2
    (by decide)
